import Mathlib

/-!
# OTP email verification service (`server.js`)

A shallow embedding of the OTP lifecycle of `server.js`: the `otpStore` map and
the handlers of `POST /api/otp/generate`, `POST /api/otp/verify`,
`GET /api/otp/status/:email` and the periodic clean-up callback.

Modelling conventions.

* Request fields (`email`, `otp`, `purpose`) are optional strings: `none` is an
  absent field, `some v` a JSON string. A JavaScript string is a sequence of
  UTF-16 code units; here it is a Lean `String`. The classes used by
  `emailRegex` treat both halves of a surrogate pair as ordinary characters, so
  matching by code point agrees with matching by code unit.
* `Date.now()` is an integer number of milliseconds, passed in as `now : Int`.
* `crypto.randomInt(min, max)` is the library function of Node.js, documented as
  returning `n` with `min <= n < max`; the entropy it consumes is passed in as a
  natural number `rnd`.
* `transporter.sendMail` is an external collaborator; whether it resolves or
  rejects is passed in as `sendOk : Bool`.
* `otpStore` is a JavaScript `Map`: an insertion-ordered association of keys to
  values, here a list of key/value pairs.
-/

namespace OtpApi

/-! ## The store -/

/-- The object stored under an email by the generate handler
(`{ otp, expiresAt, purpose, attempts }`). -/
structure Challenge where
  otp : String
  expiresAt : Int
  purpose : String
  attempts : Nat
deriving DecidableEq, Repr

/-- The `otpStore` map, as the list of its entries in insertion order. -/
abbrev Store := List (String × Challenge)

/-- `Map.prototype.get`: the value of the entry with key `k`, if there is one. -/
def Store.get : Store → String → Option Challenge
  | [], _ => none
  | (k', v) :: rest, k => if k' = k then some v else Store.get rest k

/-- `Map.prototype.has`. -/
def Store.has (s : Store) (k : String) : Bool :=
  (Store.get s k).isSome

/-- `Map.prototype.set`: an existing entry keeps its position and takes the new
value; a new key is appended at the end. -/
def Store.set (s : Store) (k : String) (v : Challenge) : Store :=
  if Store.has s k then s.map (fun e => (e.1, if e.1 = k then v else e.2))
  else s ++ [(k, v)]

/-- `Map.prototype.delete`: the entry with key `k` is removed. -/
def Store.delete (s : Store) (k : String) : Store :=
  s.filter (fun e => !decide (e.1 = k))

/-- The keys of the store, in insertion order. -/
def Store.keys (s : Store) : List String :=
  s.map Prod.fst

/-! ## The email pattern -/

/-- The character class `\s` of JavaScript regular expressions: the white space
and line terminator code points. -/
def isWhiteSpace (c : Char) : Bool :=
  let n := c.toNat
  n = 0x09 || n = 0x0A || n = 0x0B || n = 0x0C || n = 0x0D || n = 0x20 ||
  n = 0xA0 || n = 0x1680 || (0x2000 ≤ n && n ≤ 0x200A) || n = 0x2028 ||
  n = 0x2029 || n = 0x202F || n = 0x205F || n = 0x3000 || n = 0xFEFF

/-- The character class `[^\s@]`. -/
def notSpaceAt (c : Char) : Bool :=
  !isWhiteSpace c && !(c == '@')

/-- One element of an anchored pattern `^ ... $`: a single character of a
class, or a class under the quantifier `+`. -/
inductive Piece where
  | one (p : Char → Bool)
  | plus (p : Char → Bool)

/-- Whether the whole input is matched by the sequence of pieces: the input is
consumed from its first character (`^`) and nothing may remain (`$`). A `+`
takes one character and then either goes on taking or hands over to the rest
of the pattern, which covers every way a backtracking matcher may split the
input. -/
def matchPieces : List Piece → List Char → Bool
  | [], cs => cs.isEmpty
  | Piece.one _ :: _, [] => false
  | Piece.one p :: ps, c :: cs => p c && matchPieces ps cs
  | Piece.plus _ :: _, [] => false
  | Piece.plus p :: ps, c :: cs =>
      p c && (matchPieces (Piece.plus p :: ps) cs || matchPieces ps cs)

/-- The pattern `/^[^\s@]+@[^\s@]+\.[^\s@]+$/`. -/
def emailRegex : List Piece :=
  [Piece.plus notSpaceAt, Piece.one (fun c => c == '@'), Piece.plus notSpaceAt,
   Piece.one (fun c => c == '.'), Piece.plus notSpaceAt]

/-- The call `emailRegex.test(email)`. -/
def emailRegexTest (email : String) : Bool :=
  matchPieces emailRegex email.toList

/-! ## Collaborators -/

/-- The library call `crypto.randomInt(min, max)`: an integer `n` with
`min <= n < max`, picked by the entropy `rnd`. -/
def randomInt (min max rnd : Nat) : Nat :=
  min + rnd % (max - min)

/-- Truthiness test `!x` on an optional string field: an absent field and the
empty string are falsy. -/
def falsy : Option String → Bool
  | none => true
  | some v => v == ""

/-! ## Responses -/

/-- The response of the generate and verify handlers: the HTTP status and the
fields of the JSON body. -/
structure Reply where
  status : Nat
  success : Bool
  message : String
  expiresIn : Option String
  attemptsLeft : Option Int
deriving DecidableEq, Repr

/-- The response of the status handler. -/
structure StatusReply where
  «exists» : Bool
  message : Option String
  expiresIn : Option String
  attempts : Option Nat
deriving DecidableEq, Repr

/-! ## The handlers -/

/-- The handler of `POST /api/otp/generate`. -/
def generate (s : Store) (email purpose : Option String) (now : Int) (rnd : Nat)
    (sendOk : Bool) : Store × Reply :=
  match email with
  | none => (s, ⟨400, false, "Email is required", none, none⟩)
  | some e =>
    if e = "" then (s, ⟨400, false, "Email is required", none, none⟩)
    else if !emailRegexTest e then (s, ⟨400, false, "Invalid email format", none, none⟩)
    else
      let otp := toString (randomInt 100000 999999 rnd)
      let expiresAt := now + 10 * 60 * 1000
      let s' := Store.set s e ⟨otp, expiresAt, purpose.getD "email-verification", 0⟩
      if sendOk then (s', ⟨200, true, "OTP sent successfully", some "10 minutes", none⟩)
      else (s', ⟨500, false, "Failed to send OTP", none, none⟩)

/-- The handler of `POST /api/otp/verify`. -/
def verify (s : Store) (email otp : Option String) (now : Int) : Store × Reply :=
  match email, otp with
  | some e, some o =>
    if e = "" ∨ o = "" then (s, ⟨400, false, "Email and OTP are required", none, none⟩)
    else
      match Store.get s e with
      | none =>
        (s, ⟨200, false, "No OTP found for this email. Please request a new OTP.", none, none⟩)
      | some storedData =>
        if now > storedData.expiresAt then
          (Store.delete s e,
            ⟨200, false, "OTP has expired. Please request a new OTP.", none, none⟩)
        else if storedData.otp = o then
          (Store.delete s e, ⟨200, true, "Email verified successfully", none, none⟩)
        else
          let bumped : Challenge := { storedData with attempts := storedData.attempts + 1 }
          let s' := Store.set s e bumped
          if bumped.attempts ≥ 3 then
            (Store.delete s' e,
              ⟨200, false, "Too many failed attempts. Please request a new OTP.", none, none⟩)
          else
            (s', ⟨200, false, "Invalid OTP", none, some (3 - (bumped.attempts : Int))⟩)
  | _, _ => (s, ⟨400, false, "Email and OTP are required", none, none⟩)

/-- The value of `Math.round(d / 1000 / 60)` for an integer `d`: `Math.round`
rounds to the nearest integer with halves going up, which is the floor of
`(d + 30000) / 60000`. The two divisions are exact up to a relative error of
about `2.3e-16`, while a quotient that is not exactly a half is at least
`1 / 60000` away from one, so the integer formula is the computed value for
every difference of two `Date.now()` readings below `4e15` ms in magnitude. -/
def roundMinutes (d : Int) : Int :=
  (d + 30000) / 60000

/-- The handler of `GET /api/otp/status/:email`. The route parameter is always
a string. -/
def status (s : Store) (email : String) (now : Int) : Store × StatusReply :=
  match Store.get s email with
  | none => (s, ⟨false, some "No active OTP for this email", none, none⟩)
  | some storedData =>
    let expiresIn := roundMinutes (storedData.expiresAt - now)
    (s, ⟨true, none, some (toString expiresIn ++ " minutes"), some storedData.attempts⟩)

/-- The clean-up callback of `setInterval`: every entry with
`now > expiresAt` is deleted and counted. -/
def cleanup (s : Store) (now : Int) : Store × Nat :=
  s.foldl
    (fun acc entry =>
      if now > entry.2.expiresAt then (Store.delete acc.1 entry.1, acc.2 + 1) else acc)
    (s, 0)

/-! ## Named results

The result names of the specification, as the responses the handlers send. -/

/-- `InvalidInput` of Generate: status 400, "Email is required". -/
def Reply.emailRequired : Reply := ⟨400, false, "Email is required", none, none⟩

/-- `InvalidFormat`: status 400, "Invalid email format". -/
def Reply.invalidFormat : Reply := ⟨400, false, "Invalid email format", none, none⟩

/-- Success of Generate, with `expiresIn: '10 minutes'`. -/
def Reply.sent : Reply := ⟨200, true, "OTP sent successfully", some "10 minutes", none⟩

/-- `DeliveryFailed`: status 500, "Failed to send OTP". -/
def Reply.deliveryFailed : Reply := ⟨500, false, "Failed to send OTP", none, none⟩

/-- `InvalidInput` of Verify: status 400, "Email and OTP are required". -/
def Reply.invalidInput : Reply := ⟨400, false, "Email and OTP are required", none, none⟩

/-- `NotFound`. -/
def Reply.notFound : Reply :=
  ⟨200, false, "No OTP found for this email. Please request a new OTP.", none, none⟩

/-- `Expired`. -/
def Reply.expired : Reply :=
  ⟨200, false, "OTP has expired. Please request a new OTP.", none, none⟩

/-- `Verified`. -/
def Reply.verified : Reply := ⟨200, true, "Email verified successfully", none, none⟩

/-- `TooManyAttempts`. -/
def Reply.tooManyAttempts : Reply :=
  ⟨200, false, "Too many failed attempts. Please request a new OTP.", none, none⟩

/-- `InvalidCode` carrying `attemptsLeft`. -/
def Reply.invalidCode (attemptsLeft : Int) : Reply :=
  ⟨200, false, "Invalid OTP", none, some attemptsLeft⟩

/-! ## The state invariant -/

/-- A string of exactly six decimal digits. -/
def sixDigits (c : String) : Bool :=
  c.length == 6 && c.toList.all Char.isDigit

/-- The invariant of `otpStore`: a map has one entry per key, and every entry
was written by the generate handler, so its key passed `emailRegex` and its
code is the decimal form of a six-digit number. It holds in every reachable
state (`Reachable.wf`). -/
def Store.WF (s : Store) : Prop :=
  (Store.keys s).Nodup ∧ ∀ e ∈ s, emailRegexTest e.1 = true ∧ sixDigits e.2.otp = true

instance (s : Store) : Decidable (Store.WF s) := by
  unfold Store.WF; infer_instance

/-- The challenge written by a generate call that passes validation. -/
def freshChallenge (purpose : Option String) (now : Int) (rnd : Nat) : Challenge :=
  ⟨toString (randomInt 100000 999999 rnd), now + 600000,
    purpose.getD "email-verification", 0⟩

/-- The states of `otpStore` that a run of the server can reach: the empty map
at start-up, and what each handler and the clean-up callback leave behind. -/
inductive Reachable : Store → Prop where
  | atStart : Reachable []
  | afterGenerate (s : Store) (email purpose : Option String) (now : Int) (rnd : Nat)
      (sendOk : Bool) : Reachable s → Reachable (generate s email purpose now rnd sendOk).1
  | afterVerify (s : Store) (email otp : Option String) (now : Int) :
      Reachable s → Reachable (verify s email otp now).1
  | afterStatus (s : Store) (email : String) (now : Int) :
      Reachable s → Reachable (status s email now).1
  | afterCleanup (s : Store) (now : Int) : Reachable s → Reachable (cleanup s now).1

/-- A sample address. -/
def sampleEmail : String := "user@example.com"

/-- A sample state: the store after one generate call for `sampleEmail` at time
0 on the empty store, the random source giving the code 123456. -/
def sampleStore : Store :=
  (generate [] (some sampleEmail) none 0 23456 true).1

/-- A sample state with two entries: `sampleStore` after a generate call for a
second address at time 1000, the random source giving the code 100007. -/
def twoStore : Store :=
  (generate sampleStore (some "other@example.org") none 1000 7 true).1

/-- The keys of the entries the clean-up callback deletes at time `now`. -/
def expiredKeys (s : Store) (now : Int) : List String :=
  (s.filter (fun entry => decide (now > entry.2.expiresAt))).map Prod.fst

/-- The form "domain-with-dot" in the words of the specification: the part
after the "@" contains a "." with at least one character before it and at least
one character after it. -/
def DomainWithDot (dom : List Char) : Prop :=
  ∃ b c : List Char, dom = b ++ '.' :: c ∧ b ≠ [] ∧ c ≠ []

/-- The form local-part "@" domain-with-dot in the words of the specification:
no white space, exactly one "@", at least one character before the "@", and a
domain-with-dot after it. -/
def EmailForm (cs : List Char) : Prop :=
  (∀ c ∈ cs, isWhiteSpace c = false) ∧ cs.count '@' = 1 ∧
    ∃ loc dom : List Char, cs = loc ++ '@' :: dom ∧ loc ≠ [] ∧ DomainWithDot dom

/-! ## Lemmas on the store -/

theorem Store.get_map_replace (s : Store) (k k' : String) (v : Challenge) :
    Store.get (s.map (fun e => (e.1, if e.1 = k then v else e.2))) k' =
      if k' = k then (Store.get s k).map (fun _ => v) else Store.get s k' := by
  induction s with
  | nil => simp [Store.get]
  | cons hd tl ih =>
    obtain ⟨a, b⟩ := hd
    by_cases hak : a = k
    · by_cases hk : k' = k
      · subst hak; subst hk; simp [Store.get]
      · subst hak
        have : ¬ a = k' := fun h => hk h.symm
        simp [Store.get, this, hk, ih]
    · by_cases hk : k' = k
      · subst hk; simp [Store.get, hak, ih]
      · by_cases hak' : a = k'
        · simp [Store.get, hak, hak', hk]
        · simp [Store.get, hak, hak', hk, ih]

theorem Store.get_append_single (s : Store) (k k' : String) (v : Challenge) :
    Store.get (s ++ [(k, v)]) k' =
      if (Store.get s k').isSome then Store.get s k'
      else if k = k' then some v else none := by
  induction s with
  | nil => simp [Store.get]
  | cons hd tl ih =>
    obtain ⟨a, b⟩ := hd
    by_cases hak : a = k'
    · simp [Store.get, hak]
    · simp [Store.get, hak, ih]

theorem Store.get_set (s : Store) (k k' : String) (v : Challenge) :
    Store.get (Store.set s k v) k' = if k' = k then some v else Store.get s k' := by
  unfold Store.set Store.has
  by_cases h : (Store.get s k).isSome = true
  · rw [if_pos h, Store.get_map_replace]
    by_cases hk : k' = k
    · obtain ⟨x, hx⟩ := Option.isSome_iff_exists.mp h
      simp [hk, hx]
    · simp [hk]
  · rw [if_neg h, Store.get_append_single]
    by_cases hk : k' = k
    · subst hk; simp [h]
    · have hk2 : ¬ k = k' := fun e => hk e.symm
      by_cases h2 : (Store.get s k').isSome = true
      · simp [hk, h2]
      · have h3 : Store.get s k' = none := by simpa using h2
        simp [hk, hk2, h3]

theorem Store.get_delete (s : Store) (k k' : String) :
    Store.get (Store.delete s k) k' = if k' = k then none else Store.get s k' := by
  unfold Store.delete
  induction s with
  | nil => simp [Store.get]
  | cons hd tl ih =>
    obtain ⟨a, b⟩ := hd
    by_cases hak : a = k
    · subst hak
      by_cases hk : k' = a
      · subst hk
        simpa [List.filter] using ih
      · have h2 : ¬ a = k' := fun h => hk h.symm
        simp [List.filter, ih, hk, Store.get, h2]
    · by_cases hk : k' = k
      · subst hk
        simp [List.filter, hak, Store.get]
        simpa using ih
      · by_cases hak' : a = k'
        · simp [List.filter, hak, hk, Store.get, hak']
        · simp [List.filter, hak, ih, hk, Store.get, hak']

theorem Store.get_isSome_iff_mem_keys (s : Store) (k : String) :
    (Store.get s k).isSome = true ↔ k ∈ Store.keys s := by
  induction s with
  | nil => simp [Store.get, Store.keys]
  | cons hd tl ih =>
    obtain ⟨a, b⟩ := hd
    by_cases hak : a = k
    · simp [Store.get, Store.keys, hak]
    · have : ¬ k = a := fun h => hak h.symm
      simp only [Store.get, hak, if_false, Store.keys, List.map_cons, List.mem_cons, this,
        false_or]
      exact ih

theorem Store.mem_of_get (s : Store) (k : String) (v : Challenge)
    (h : Store.get s k = some v) : (k, v) ∈ s := by
  induction s with
  | nil => simp [Store.get] at h
  | cons hd tl ih =>
    obtain ⟨a, b⟩ := hd
    by_cases hak : a = k
    · simp [Store.get, hak] at h
      simp [hak, h]
    · simp [Store.get, hak] at h
      exact List.mem_cons_of_mem _ (ih h)

theorem Store.keys_set (s : Store) (k : String) (v : Challenge) :
    Store.keys (Store.set s k v) =
      if Store.has s k then Store.keys s else Store.keys s ++ [k] := by
  unfold Store.set Store.keys
  by_cases h : Store.has s k = true
  · simp only [h, if_true, List.map_map]
    apply List.map_congr_left
    intro e _
    by_cases he : e.1 = k <;> simp [he]
  · simp [h]

theorem Store.keys_delete (s : Store) (k : String) :
    Store.keys (Store.delete s k) = (Store.keys s).filter (fun a => !decide (a = k)) := by
  unfold Store.delete Store.keys
  induction s with
  | nil => rfl
  | cons hd tl ih =>
    by_cases h : hd.1 = k <;> simp [List.filter, h, ih]

theorem Store.nodup_keys_set (s : Store) (k : String) (v : Challenge)
    (h : (Store.keys s).Nodup) : (Store.keys (Store.set s k v)).Nodup := by
  rw [Store.keys_set]
  by_cases hk : Store.has s k = true
  · simpa [hk] using h
  · simp only [hk, if_false]
    have hnot : k ∉ Store.keys s := by
      intro hmem
      exact hk ((Store.get_isSome_iff_mem_keys s k).mpr hmem)
    exact List.Nodup.append h (List.nodup_singleton k) (by simpa using hnot)

theorem Store.nodup_keys_delete (s : Store) (k : String)
    (h : (Store.keys s).Nodup) : (Store.keys (Store.delete s k)).Nodup := by
  rw [Store.keys_delete]
  exact h.filter _

theorem Store.filter_key_of_get_none (s : Store) (k : String)
    (h : Store.get s k = none) : s.filter (fun e => decide (e.1 = k)) = [] := by
  induction s with
  | nil => rfl
  | cons hd tl ih =>
    obtain ⟨a, b⟩ := hd
    by_cases hak : a = k
    · simp [Store.get, hak] at h
    · simp [Store.get, hak] at h
      simp [List.filter, hak, ih h]

theorem Store.filter_key_of_get (s : Store) (k : String) (v : Challenge)
    (hnd : (Store.keys s).Nodup) (h : Store.get s k = some v) :
    s.filter (fun e => decide (e.1 = k)) = [(k, v)] := by
  induction s with
  | nil => simp [Store.get] at h
  | cons hd tl ih =>
    obtain ⟨a, b⟩ := hd
    simp only [Store.keys, List.map_cons, List.nodup_cons] at hnd
    by_cases hak : a = k
    · simp [Store.get, hak] at h
      have hnone : Store.get tl k = none := by
        by_contra hc
        have hs : (Store.get tl k).isSome = true := by
          cases hg : Store.get tl k with
          | none => exact absurd hg hc
          | some _ => rfl
        exact hnd.1 (hak ▸ (Store.get_isSome_iff_mem_keys tl k).mp hs)
      simp [List.filter, hak, h, Store.filter_key_of_get_none tl k hnone]
    · simp [Store.get, hak] at h
      simp [List.filter, hak, ih hnd.2 h]

theorem Store.mem_set (s : Store) (k : String) (v : Challenge) (x : String × Challenge)
    (h : x ∈ Store.set s k v) : x ∈ s ∨ x = (k, v) := by
  unfold Store.set at h
  by_cases hk : Store.has s k = true
  · rw [if_pos hk] at h
    obtain ⟨y, hy, rfl⟩ := List.mem_map.mp h
    by_cases hyk : y.1 = k
    · right
      simp [hyk]
    · left
      simpa [hyk] using hy
  · rw [if_neg hk] at h
    rcases List.mem_append.mp h with h1 | h1
    · exact Or.inl h1
    · right
      simpa using h1

theorem Store.mem_delete (s : Store) (k : String) (x : String × Challenge)
    (h : x ∈ Store.delete s k) : x ∈ s := by
  unfold Store.delete at h
  exact (List.mem_filter.mp h).1

/-! ## The decimal form of a six-digit number -/

theorem toDigitsCore_step (b f n : Nat) (ds : List Char) :
    Nat.toDigitsCore b (f + 1) n ds =
      if n / b = 0 then Nat.digitChar (n % b) :: ds
      else Nat.toDigitsCore b f (n / b) (Nat.digitChar (n % b) :: ds) := by
  simp [Nat.toDigitsCore]

theorem digitChar_isDigit (d : Nat) (h : d < 10) : (Nat.digitChar d).isDigit = true := by
  interval_cases d <;> decide

/-- The decimal form of a number between 100000 and 999999 is the list of its
six decimal digits. -/
theorem toString_sixDigit (n : Nat) (h1 : 100000 ≤ n) (h2 : n < 1000000) :
    toString n = String.mk
      [Nat.digitChar (n / 10 / 10 / 10 / 10 / 10 % 10),
       Nat.digitChar (n / 10 / 10 / 10 / 10 % 10),
       Nat.digitChar (n / 10 / 10 / 10 % 10),
       Nat.digitChar (n / 10 / 10 % 10),
       Nat.digitChar (n / 10 % 10),
       Nat.digitChar (n % 10)] := by
  show (Nat.toDigits 10 n).asString = _
  unfold Nat.toDigits List.asString
  congr 1
  obtain ⟨m, rfl⟩ : ∃ m, n = m + 5 := ⟨n - 5, by omega⟩
  have e1 : (m + 5) / 10 ≠ 0 := by omega
  have e2 : (m + 5) / 10 / 10 ≠ 0 := by omega
  have e3 : (m + 5) / 10 / 10 / 10 ≠ 0 := by omega
  have e4 : (m + 5) / 10 / 10 / 10 / 10 ≠ 0 := by omega
  have e5 : (m + 5) / 10 / 10 / 10 / 10 / 10 ≠ 0 := by omega
  have e6 : (m + 5) / 10 / 10 / 10 / 10 / 10 / 10 = 0 := by omega
  show Nat.toDigitsCore 10 (m + 1 + 1 + 1 + 1 + 1 + 1) (m + 5) [] = _
  rw [toDigitsCore_step, if_neg e1, toDigitsCore_step, if_neg e2, toDigitsCore_step,
    if_neg e3, toDigitsCore_step, if_neg e4, toDigitsCore_step, if_neg e5,
    toDigitsCore_step, if_pos e6]

theorem sixDigits_toString (n : Nat) (h1 : 100000 ≤ n) (h2 : n < 1000000) :
    sixDigits (toString n) = true := by
  rw [toString_sixDigit n h1 h2]
  simp [sixDigits, String.length, digitChar_isDigit, Nat.mod_lt]

theorem randomInt_range (rnd : Nat) :
    100000 ≤ randomInt 100000 999999 rnd ∧ randomInt 100000 999999 rnd ≤ 999998 := by
  unfold randomInt
  omega

theorem sixDigits_ne_empty (c : String) (h : sixDigits c = true) : c ≠ "" := by
  intro hc
  subst hc
  simp [sixDigits] at h

theorem emailRegexTest_ne_empty (e : String) (h : emailRegexTest e = true) : e ≠ "" := by
  intro hc
  subst hc
  simp [emailRegexTest, emailRegex, matchPieces] at h

/-! ## The branches of the handlers -/

theorem generate_valid (s : Store) (e : String) (purpose : Option String) (now : Int)
    (rnd : Nat) (sendOk : Bool) (hvalid : emailRegexTest e = true) :
    generate s (some e) purpose now rnd sendOk =
      (Store.set s e (freshChallenge purpose now rnd),
        if sendOk then Reply.sent else Reply.deliveryFailed) := by
  have hne : e ≠ "" := emailRegexTest_ne_empty e hvalid
  cases sendOk <;>
    simp [generate, hne, hvalid, freshChallenge, Reply.sent, Reply.deliveryFailed]

theorem verify_notFound (s : Store) (e o : String) (now : Int) (he : e ≠ "") (ho : o ≠ "")
    (hget : Store.get s e = none) :
    verify s (some e) (some o) now = (s, Reply.notFound) := by
  simp [verify, he, ho, hget, Reply.notFound]

theorem verify_expired (s : Store) (e o : String) (now : Int) (d : Challenge)
    (he : e ≠ "") (ho : o ≠ "") (hget : Store.get s e = some d) (hexp : now > d.expiresAt) :
    verify s (some e) (some o) now = (Store.delete s e, Reply.expired) := by
  simp [verify, he, ho, hget, hexp, Reply.expired]

theorem verify_match (s : Store) (e o : String) (now : Int) (d : Challenge)
    (he : e ≠ "") (ho : o ≠ "") (hget : Store.get s e = some d) (hexp : now ≤ d.expiresAt)
    (hcode : d.otp = o) :
    verify s (some e) (some o) now = (Store.delete s e, Reply.verified) := by
  have hexp2 : ¬ d.expiresAt < now := not_lt.mpr hexp
  simp [verify, he, ho, hget, hexp2, hcode, Reply.verified]

theorem verify_mismatch (s : Store) (e o : String) (now : Int) (d : Challenge)
    (he : e ≠ "") (ho : o ≠ "") (hget : Store.get s e = some d) (hexp : now ≤ d.expiresAt)
    (hcode : d.otp ≠ o) (hatt : d.attempts + 1 < 3) :
    verify s (some e) (some o) now =
      (Store.set s e { d with attempts := d.attempts + 1 },
        Reply.invalidCode (3 - ((d.attempts + 1 : Nat) : Int))) := by
  have hexp2 : ¬ d.expiresAt < now := not_lt.mpr hexp
  have hatt2 : ¬ 3 ≤ d.attempts + 1 := not_le.mpr hatt
  simp [verify, he, ho, hget, hexp2, hcode, hatt2, Reply.invalidCode]

theorem verify_mismatch_last (s : Store) (e o : String) (now : Int) (d : Challenge)
    (he : e ≠ "") (ho : o ≠ "") (hget : Store.get s e = some d) (hexp : now ≤ d.expiresAt)
    (hcode : d.otp ≠ o) (hatt : 3 ≤ d.attempts + 1) :
    verify s (some e) (some o) now =
      (Store.delete (Store.set s e { d with attempts := d.attempts + 1 }) e,
        Reply.tooManyAttempts) := by
  have hexp2 : ¬ d.expiresAt < now := not_lt.mpr hexp
  simp [verify, he, ho, hget, hexp2, hcode, hatt, Reply.tooManyAttempts]

theorem verify_falsy (s : Store) (email otp : Option String) (now : Int)
    (h : falsy email = true ∨ falsy otp = true) :
    verify s email otp now = (s, Reply.invalidInput) := by
  cases email with
  | none => cases otp <;> simp [verify, Reply.invalidInput]
  | some e =>
    cases otp with
    | none => simp [verify, Reply.invalidInput]
    | some o =>
      have h2 : e = "" ∨ o = "" := by simpa [falsy] using h
      simp [verify, h2, Reply.invalidInput]

/-! ## The invariant is kept by every operation -/

theorem Store.WF_nil : Store.WF [] := by
  simp [Store.WF, Store.keys]

theorem Store.WF_key_ne_empty (s : Store) (e : String) (d : Challenge) (hwf : Store.WF s)
    (hget : Store.get s e = some d) : e ≠ "" ∧ d.otp ≠ "" := by
  have h := hwf.2 (e, d) (Store.mem_of_get s e d hget)
  exact ⟨emailRegexTest_ne_empty e h.1, sixDigits_ne_empty d.otp h.2⟩

theorem Store.WF_set (s : Store) (k : String) (v : Challenge) (hwf : Store.WF s)
    (hk : emailRegexTest k = true) (hv : sixDigits v.otp = true) :
    Store.WF (Store.set s k v) := by
  refine ⟨Store.nodup_keys_set s k v hwf.1, ?_⟩
  intro x hx
  rcases Store.mem_set s k v x hx with h | h
  · exact hwf.2 x h
  · subst h
    exact ⟨hk, hv⟩

theorem Store.WF_delete (s : Store) (k : String) (hwf : Store.WF s) :
    Store.WF (Store.delete s k) :=
  ⟨Store.nodup_keys_delete s k hwf.1, fun x hx => hwf.2 x (Store.mem_delete s k x hx)⟩

theorem generate_WF (s : Store) (email purpose : Option String) (now : Int) (rnd : Nat)
    (sendOk : Bool) (hwf : Store.WF s) :
    Store.WF (generate s email purpose now rnd sendOk).1 := by
  cases email with
  | none => simpa [generate] using hwf
  | some e =>
    by_cases hvalid : emailRegexTest e = true
    · rw [generate_valid s e purpose now rnd sendOk hvalid]
      apply Store.WF_set s e _ hwf hvalid
      have hr := randomInt_range rnd
      exact sixDigits_toString _ hr.1 (by omega)
    · by_cases he : e = "" <;> simpa [generate, he, hvalid] using hwf

theorem verify_WF (s : Store) (email otp : Option String) (now : Int) (hwf : Store.WF s) :
    Store.WF (verify s email otp now).1 := by
  by_cases hf : falsy email = true ∨ falsy otp = true
  · rw [verify_falsy s email otp now hf]; exact hwf
  · obtain ⟨e, rfl, he⟩ : ∃ e, email = some e ∧ e ≠ "" := by
      cases email with
      | none => simp [falsy] at hf
      | some e => exact ⟨e, rfl, by intro h; simp [falsy, h] at hf⟩
    obtain ⟨o, rfl, ho⟩ : ∃ o, otp = some o ∧ o ≠ "" := by
      cases otp with
      | none => simp [falsy] at hf
      | some o => exact ⟨o, rfl, by intro h; simp [falsy, h] at hf⟩
    cases hget : Store.get s e with
    | none => rw [verify_notFound s e o now he ho hget]; exact hwf
    | some d =>
      have hmem := hwf.2 (e, d) (Store.mem_of_get s e d hget)
      by_cases hexp : now > d.expiresAt
      · rw [verify_expired s e o now d he ho hget hexp]; exact Store.WF_delete s e hwf
      · have hexp2 : now ≤ d.expiresAt := not_lt.mp hexp
        by_cases hcode : d.otp = o
        · rw [verify_match s e o now d he ho hget hexp2 hcode]; exact Store.WF_delete s e hwf
        · have hset : Store.WF (Store.set s e { d with attempts := d.attempts + 1 }) :=
            Store.WF_set s e _ hwf hmem.1 hmem.2
          by_cases hatt : 3 ≤ d.attempts + 1
          · rw [verify_mismatch_last s e o now d he ho hget hexp2 hcode hatt]
            exact Store.WF_delete _ e hset
          · rw [verify_mismatch s e o now d he ho hget hexp2 hcode (not_le.mp hatt)]
            exact hset

theorem cleanup_WF (s : Store) (now : Int) (hwf : Store.WF s) :
    Store.WF (cleanup s now).1 := by
  unfold cleanup
  suffices h : ∀ (l : Store) (acc : Store × Nat), Store.WF acc.1 →
      Store.WF (l.foldl (fun acc entry =>
        if now > entry.2.expiresAt then (Store.delete acc.1 entry.1, acc.2 + 1) else acc)
        acc).1 from h s (s, 0) hwf
  intro l
  induction l with
  | nil => intro acc h; exact h
  | cons hd tl ih =>
    intro acc h
    simp only [List.foldl_cons]
    apply ih
    by_cases hc : now > hd.2.expiresAt
    · simpa [hc] using Store.WF_delete acc.1 hd.1 h
    · simpa [hc] using h

theorem digitChar_eq_nine (d : Nat) (h : d < 10) (h9 : Nat.digitChar d = '9') : d = 9 := by
  interval_cases d <;> first | rfl | (exfalso; revert h9; decide)

theorem toString_ne_999999 (n : Nat) (h1 : 100000 ≤ n) (h2 : n ≤ 999998) :
    toString n ≠ "999999" := by
  rw [toString_sixDigit n h1 (by omega)]
  intro h
  have hl := congrArg String.data h
  simp only [List.cons.injEq] at hl
  obtain ⟨a5, a4, a3, a2, a1, a0, _⟩ := hl
  have b5 := digitChar_eq_nine _ (Nat.mod_lt _ (by decide)) a5
  have b4 := digitChar_eq_nine _ (Nat.mod_lt _ (by decide)) a4
  have b3 := digitChar_eq_nine _ (Nat.mod_lt _ (by decide)) a3
  have b2 := digitChar_eq_nine _ (Nat.mod_lt _ (by decide)) a2
  have b1 := digitChar_eq_nine _ (Nat.mod_lt _ (by decide)) a1
  have b0 := digitChar_eq_nine _ (Nat.mod_lt _ (by decide)) a0
  omega

theorem generate_store_get (s : Store) (e : String) (purpose : Option String) (now : Int)
    (rnd : Nat) (sendOk : Bool) (hvalid : emailRegexTest e = true) (k : String) :
    Store.get (generate s (some e) purpose now rnd sendOk).1 k =
      if k = e then some (freshChallenge purpose now rnd) else Store.get s k := by
  rw [generate_valid s e purpose now rnd sendOk hvalid]
  exact Store.get_set s e k _

theorem generate_store_filter (s : Store) (e : String) (purpose : Option String) (now : Int)
    (rnd : Nat) (sendOk : Bool) (hwf : Store.WF s) (hvalid : emailRegexTest e = true) :
    (generate s (some e) purpose now rnd sendOk).1.filter (fun x => decide (x.1 = e)) =
      [(e, freshChallenge purpose now rnd)] := by
  apply Store.filter_key_of_get
  · exact (generate_WF s (some e) purpose now rnd sendOk hwf).1
  · rw [generate_store_get s e purpose now rnd sendOk hvalid]; simp

theorem freshChallenge_sixDigits (purpose : Option String) (now : Int) (rnd : Nat) :
    sixDigits (freshChallenge purpose now rnd).otp = true := by
  have hr := randomInt_range rnd
  exact sixDigits_toString _ hr.1 (by omega)

theorem status_store (s : Store) (email : String) (now : Int) :
    (status s email now).1 = s := by
  unfold status
  cases Store.get s email <;> rfl

/-- Every reachable state of `otpStore` satisfies the invariant. -/
theorem Reachable.wf (s : Store) (h : Reachable s) : Store.WF s := by
  induction h with
  | atStart => exact Store.WF_nil
  | afterGenerate s email purpose now rnd sendOk _ ih =>
    exact generate_WF s email purpose now rnd sendOk ih
  | afterVerify s email otp now _ ih => exact verify_WF s email otp now ih
  | afterStatus s email now _ ih => rw [status_store]; exact ih
  | afterCleanup s now _ ih => exact cleanup_WF s now ih

/-- The integer formula of `roundMinutes` is rounding to the nearest integer of
the exact quotient, halves going up. -/
theorem roundMinutes_eq_floor (d : Int) :
    roundMinutes d = ⌊(d : ℚ) / 60000 + 1 / 2⌋ := by
  symm
  rw [Int.floor_eq_iff]
  unfold roundMinutes
  have h1 : 60000 * ((d + 30000) / 60000) ≤ d + 30000 := by omega
  have h2 : d + 30000 < 60000 * ((d + 30000) / 60000) + 60000 := by omega
  have h1q : (60000 : ℚ) * (((d + 30000) / 60000 : Int) : ℚ) ≤ (d : ℚ) + 30000 := by
    exact_mod_cast h1
  have h2q : (d : ℚ) + 30000 < 60000 * (((d + 30000) / 60000 : Int) : ℚ) + 60000 := by
    exact_mod_cast h2
  constructor <;> linarith

/-! ## Verification: wrong codes, the right code, expiry -/

/-- C1, as stated, fails when a submitted code is the empty string: on a store
holding a fresh challenge with code 123456, a verify call with the empty code
(which differs from the stored code) before expiry is rejected as invalid input
with status 400; it is not answered with `InvalidCode` and two attempts left,
and the challenge keeps `attempts = 0`. -/
theorem verify_empty_code_not_counted :
    Store.get sampleStore sampleEmail =
        some ⟨"123456", 600000, "email-verification", 0⟩ ∧
      ("" : String) ≠ "123456" ∧ (0 : Int) ≤ 600000 ∧
      (verify sampleStore (some sampleEmail) (some "") 0).2 ≠ Reply.invalidCode 2 ∧
      verify sampleStore (some sampleEmail) (some "") 0 =
        (sampleStore, Reply.invalidInput) := by
  decide

/-- C1 (amended): on a well-formed store holding a fresh challenge
(`attempts = 0`) for an email, three consecutive verify calls with non-empty
codes different from the stored code, each at a time not after `expiresAt`,
answer `InvalidCode` with 2 attempts left, `InvalidCode` with 1 attempt left and
`TooManyAttempts`; after the third call the store holds no challenge for the
email, and a fourth verify call (any non-empty code, any time) answers
`NotFound`. -/
theorem verify_three_wrong_codes (s : Store) (email : String) (ch : Challenge)
    (c1 c2 c3 c4 : String) (t1 t2 t3 t4 : Int)
    (hwf : Store.WF s) (hget : Store.get s email = some ch) (hfresh : ch.attempts = 0)
    (h1 : c1 ≠ ch.otp) (h2 : c2 ≠ ch.otp) (h3 : c3 ≠ ch.otp)
    (n1 : c1 ≠ "") (n2 : c2 ≠ "") (n3 : c3 ≠ "") (n4 : c4 ≠ "")
    (ht1 : t1 ≤ ch.expiresAt) (ht2 : t2 ≤ ch.expiresAt) (ht3 : t3 ≤ ch.expiresAt) :
    let r1 := verify s (some email) (some c1) t1
    let r2 := verify r1.1 (some email) (some c2) t2
    let r3 := verify r2.1 (some email) (some c3) t3
    let r4 := verify r3.1 (some email) (some c4) t4
    r1.2 = Reply.invalidCode 2 ∧ r2.2 = Reply.invalidCode 1 ∧
      r3.2 = Reply.tooManyAttempts ∧ Store.get r3.1 email = none ∧
      r4.2 = Reply.notFound := by
  intro r1 r2 r3 r4
  have he : email ≠ "" := (Store.WF_key_ne_empty s email ch hwf hget).1
  obtain ⟨otp, expiresAt, purpose, attempts⟩ := ch
  simp only at hfresh h1 h2 h3 ht1 ht2 ht3
  subst hfresh
  have e1 : r1 = (Store.set s email ⟨otp, expiresAt, purpose, 1⟩, Reply.invalidCode 2) :=
    verify_mismatch s email c1 t1 _ he n1 hget ht1 (Ne.symm h1) (by simp)
  have g1 : Store.get r1.1 email = some ⟨otp, expiresAt, purpose, 1⟩ := by
    rw [e1]; simp [Store.get_set]
  have e2 : r2 = (Store.set r1.1 email ⟨otp, expiresAt, purpose, 2⟩, Reply.invalidCode 1) :=
    verify_mismatch r1.1 email c2 t2 _ he n2 g1 ht2 (Ne.symm h2) (by simp)
  have g2 : Store.get r2.1 email = some ⟨otp, expiresAt, purpose, 2⟩ := by
    rw [e2]; simp [Store.get_set]
  have e3 : r3 = (Store.delete (Store.set r2.1 email ⟨otp, expiresAt, purpose, 3⟩) email,
      Reply.tooManyAttempts) :=
    verify_mismatch_last r2.1 email c3 t3 _ he n3 g2 ht3 (Ne.symm h3) (by simp)
  have g3 : Store.get r3.1 email = none := by
    rw [e3]; simp [Store.get_delete]
  have e4 : r4 = (r3.1, Reply.notFound) := verify_notFound r3.1 email c4 t4 he n4 g3
  refine ⟨?_, ?_, ?_, g3, ?_⟩
  · rw [e1]
  · rw [e2]
  · rw [e3]
  · rw [e4]

/-- Witness of C1 (amended) on the sample store, with wrong codes 000000,
111111, 222222 and a fourth call with the stored code itself. -/
theorem verify_three_wrong_codes_witness :
    (verify sampleStore (some sampleEmail) (some "000000") 0).2 = Reply.invalidCode 2 :=
  (verify_three_wrong_codes sampleStore sampleEmail
    ⟨"123456", 600000, "email-verification", 0⟩ "000000" "111111" "222222" "123456"
    0 100 600000 700000 (by decide) (by decide) rfl (by decide) (by decide) (by decide)
    (by decide) (by decide) (by decide) (by decide) (by decide) (by decide) (by decide)).1

/-- C2: on a well-formed store holding a challenge for an email, at a time not
after `expiresAt`, a verify call with the stored code answers `Verified` and
deletes the challenge, whatever its attempts count; a second verify call with
the same code (at any time) then answers `NotFound`. -/
theorem verify_correct_code (s : Store) (email : String) (ch : Challenge) (now later : Int)
    (hwf : Store.WF s) (hget : Store.get s email = some ch) (hnow : now ≤ ch.expiresAt) :
    verify s (some email) (some ch.otp) now = (Store.delete s email, Reply.verified) ∧
      Store.get (Store.delete s email) email = none ∧
      verify (Store.delete s email) (some email) (some ch.otp) later =
        (Store.delete s email, Reply.notFound) := by
  obtain ⟨he, ho⟩ := Store.WF_key_ne_empty s email ch hwf hget
  have hnone : Store.get (Store.delete s email) email = none := by simp [Store.get_delete]
  exact ⟨verify_match s email ch.otp now ch he ho hget hnow rfl, hnone,
    verify_notFound _ email ch.otp later he ho hnone⟩

/-- Witness of C2 on the sample store at the expiry time itself. -/
theorem verify_correct_code_witness :
    verify sampleStore (some sampleEmail) (some "123456") 600000 =
      (Store.delete sampleStore sampleEmail, Reply.verified) :=
  (verify_correct_code sampleStore sampleEmail ⟨"123456", 600000, "email-verification", 0⟩
    600000 600001 (by decide) (by decide) (by decide)).1

/-- C3, as stated, fails when the submitted code is the empty string: on the
sample store after its expiry time (600001 > 600000) a verify call with the
empty code is rejected as invalid input; it does not answer `Expired` and the
expired challenge stays in the store. -/
theorem verify_empty_code_not_expired :
    Store.get sampleStore sampleEmail =
        some ⟨"123456", 600000, "email-verification", 0⟩ ∧
      (600001 : Int) > 600000 ∧
      (verify sampleStore (some sampleEmail) (some "") 600001).2 ≠ Reply.expired ∧
      Store.get (verify sampleStore (some sampleEmail) (some "") 600001).1 sampleEmail =
        some ⟨"123456", 600000, "email-verification", 0⟩ := by
  decide

/-- C3 (amended): on a well-formed store holding a challenge for an email, a
verify call with a non-empty submitted code answers `Expired` and deletes the
challenge exactly when `now > expiresAt`, whether or not the code is the stored
one; a call after expiry never succeeds; and at `now = expiresAt` the stored
code still verifies. -/
theorem verify_expiry (s : Store) (email code : String) (ch : Challenge) (now : Int)
    (hwf : Store.WF s) (hget : Store.get s email = some ch) (hcode : code ≠ "") :
    (now > ch.expiresAt →
        verify s (some email) (some code) now = (Store.delete s email, Reply.expired) ∧
        Store.get (verify s (some email) (some code) now).1 email = none) ∧
      ((verify s (some email) (some code) now).2 = Reply.expired ↔ now > ch.expiresAt) ∧
      ((verify s (some email) (some code) now).2.success = true → now ≤ ch.expiresAt) ∧
      verify s (some email) (some ch.otp) ch.expiresAt =
        (Store.delete s email, Reply.verified) := by
  obtain ⟨he, ho⟩ := Store.WF_key_ne_empty s email ch hwf hget
  have hexpired : now > ch.expiresAt →
      verify s (some email) (some code) now = (Store.delete s email, Reply.expired) :=
    fun h => verify_expired s email code now ch he hcode hget h
  have hlive : now ≤ ch.expiresAt →
      (verify s (some email) (some code) now).2 ≠ Reply.expired := by
    intro h
    by_cases hc : ch.otp = code
    · rw [verify_match s email code now ch he hcode hget h hc]
      simp [Reply.verified, Reply.expired]
    · by_cases hatt : 3 ≤ ch.attempts + 1
      · rw [verify_mismatch_last s email code now ch he hcode hget h hc hatt]
        simp [Reply.tooManyAttempts, Reply.expired]
      · rw [verify_mismatch s email code now ch he hcode hget h hc (not_le.mp hatt)]
        simp [Reply.invalidCode, Reply.expired]
  refine ⟨fun h => ⟨hexpired h, ?_⟩, ⟨?_, ?_⟩, ?_, ?_⟩
  · rw [hexpired h]; simp [Store.get_delete]
  · intro h
    by_contra hn
    exact hlive (not_lt.mp hn) h
  · intro h
    rw [hexpired h]
  · intro h
    by_contra hn
    rw [hexpired (not_le.mp hn)] at h
    simp [Reply.expired] at h
  · exact verify_match s email ch.otp ch.expiresAt ch he ho hget le_rfl rfl

/-- Witness of C3 (amended): the sample store one millisecond after expiry,
with the stored code. -/
theorem verify_expiry_witness :
    verify sampleStore (some sampleEmail) (some "123456") 600001 =
      (Store.delete sampleStore sampleEmail, Reply.expired) :=
  ((verify_expiry sampleStore sampleEmail "123456"
    ⟨"123456", 600000, "email-verification", 0⟩ 600001 (by decide) (by decide)
    (by decide)).1 (by decide)).1

/-! ## Generation -/

/-- C4: on a well-formed store, a generate call for an email that passes the
pattern, with a successful mail send, answers success with
`expiresIn = "10 minutes"` and leaves exactly one entry for that email: its code
is six decimal digits, `attempts` is 0, `expiresAt` is `now + 600000` and the
purpose is the given one or "email-verification" when absent; the entries of
all other emails are as before. -/
theorem generate_success (s : Store) (email : String) (purpose : Option String) (now : Int)
    (rnd : Nat) (hwf : Store.WF s) (hvalid : emailRegexTest email = true) :
    (generate s (some email) purpose now rnd true).2 = Reply.sent ∧
      (generate s (some email) purpose now rnd true).2.success = true ∧
      (generate s (some email) purpose now rnd true).2.expiresIn = some "10 minutes" ∧
      (∃ ch : Challenge,
        (generate s (some email) purpose now rnd true).1.filter
            (fun x => decide (x.1 = email)) = [(email, ch)] ∧
          Store.get (generate s (some email) purpose now rnd true).1 email = some ch ∧
          ch.otp.length = 6 ∧ ch.otp.toList.all Char.isDigit = true ∧
          ch.attempts = 0 ∧ ch.expiresAt = now + 600000 ∧
          ch.purpose = purpose.getD "email-verification") ∧
      ∀ k : String, k ≠ email →
        Store.get (generate s (some email) purpose now rnd true).1 k = Store.get s k := by
  have hr : (generate s (some email) purpose now rnd true).2 = Reply.sent := by
    rw [generate_valid s email purpose now rnd true hvalid]; rfl
  refine ⟨hr, by rw [hr]; rfl, by rw [hr]; rfl, ⟨freshChallenge purpose now rnd, ?_⟩, ?_⟩
  · have h6 := freshChallenge_sixDigits purpose now rnd
    simp only [sixDigits, Bool.and_eq_true, beq_iff_eq] at h6
    refine ⟨generate_store_filter s email purpose now rnd true hwf hvalid, ?_, h6.1, h6.2,
      rfl, rfl, rfl⟩
    rw [generate_store_get s email purpose now rnd true hvalid]; simp
  · intro k hk
    rw [generate_store_get s email purpose now rnd true hvalid]; simp [hk]

/-- Witness of C4: a second address is added to the sample store. -/
theorem generate_success_witness :
    (generate sampleStore (some "other@example.org") (some "login") 5000 7 true).2 =
      Reply.sent :=
  (generate_success sampleStore "other@example.org" (some "login") 5000 7 (by decide)
    (by decide)).1

/-- C5 (the code at the upper bound): `crypto.randomInt(100000, 999999)`
excludes its upper bound, so the code a generate call stores is the decimal form
of a number between 100000 and 999998, each of which some draw produces; it is
never "999999". -/
theorem generate_code_excludes_upper_bound (s : Store) (email : String)
    (purpose : Option String) (now : Int) (rnd : Nat) (sendOk : Bool)
    (hvalid : emailRegexTest email = true) :
    (∃ ch : Challenge,
        Store.get (generate s (some email) purpose now rnd sendOk).1 email = some ch ∧
          ch.otp = toString (randomInt 100000 999999 rnd) ∧ ch.otp ≠ "999999") ∧
      100000 ≤ randomInt 100000 999999 rnd ∧ randomInt 100000 999999 rnd ≤ 999998 ∧
      (∀ r : Nat, randomInt 100000 999999 r ≠ 999999) ∧
      ∀ n : Nat, 100000 ≤ n → n ≤ 999998 → ∃ r : Nat, randomInt 100000 999999 r = n := by
  have hr := randomInt_range rnd
  refine ⟨⟨freshChallenge purpose now rnd, ?_, rfl, ?_⟩, hr.1, hr.2, ?_, ?_⟩
  · rw [generate_store_get s email purpose now rnd sendOk hvalid]; simp
  · exact toString_ne_999999 _ hr.1 hr.2
  · intro r h
    have := (randomInt_range r).2
    omega
  · intro n h1 h2
    refine ⟨n - 100000, ?_⟩
    unfold randomInt
    omega

/-- Witness of C5: the largest draw on the sample address gives 999998. -/
theorem generate_code_excludes_upper_bound_witness :
    randomInt 100000 999999 899998 ≤ 999998 :=
  (generate_code_excludes_upper_bound [] sampleEmail none 0 899998 true (by decide)).2.2.1

/-- C6, as stated, fails when both calls draw the same code: after two generate
calls for the sample address that both draw 123456, a verify call with the
first call's code succeeds. -/
theorem generate_twice_same_code_verifies :
    Store.get (generate [] (some sampleEmail) none 0 23456 true).1 sampleEmail =
        some ⟨"123456", 600000, "email-verification", 0⟩ ∧
      verify
          (generate (generate [] (some sampleEmail) none 0 23456 true).1
            (some sampleEmail) none 1000 23456 true).1
          (some sampleEmail) (some "123456") 2000 =
        ([], Reply.verified) := by
  decide

/-- C6 (amended): after two consecutive generate calls for the same valid email
on a well-formed store, the store holds exactly one entry for that email, the
challenge of the second call (its code, its `expiresAt`, `attempts = 0`), and a
verify call with the first call's code does not succeed unless the second call
drew the same code. -/
theorem generate_twice (s : Store) (email : String) (p1 p2 : Option String) (now1 now2 : Int)
    (rnd1 rnd2 : Nat) (ok1 ok2 : Bool) (later : Int)
    (hwf : Store.WF s) (hvalid : emailRegexTest email = true) :
    let s1 := (generate s (some email) p1 now1 rnd1 ok1).1
    let s2 := (generate s1 (some email) p2 now2 rnd2 ok2).1
    Store.get s1 email = some (freshChallenge p1 now1 rnd1) ∧
      s2.filter (fun x => decide (x.1 = email)) = [(email, freshChallenge p2 now2 rnd2)] ∧
      Store.get s2 email = some (freshChallenge p2 now2 rnd2) ∧
      (freshChallenge p2 now2 rnd2).attempts = 0 ∧
      (freshChallenge p2 now2 rnd2).expiresAt = now2 + 600000 ∧
      (freshChallenge p2 now2 rnd2).otp = toString (randomInt 100000 999999 rnd2) ∧
      ((freshChallenge p1 now1 rnd1).otp ≠ (freshChallenge p2 now2 rnd2).otp →
        (verify s2 (some email) (some (freshChallenge p1 now1 rnd1).otp) later).2.success =
          false) := by
  intro s1 s2
  have hwf1 : Store.WF s1 := generate_WF s (some email) p1 now1 rnd1 ok1 hwf
  have g1 : Store.get s1 email = some (freshChallenge p1 now1 rnd1) := by
    rw [generate_store_get s email p1 now1 rnd1 ok1 hvalid]; simp
  have g2 : Store.get s2 email = some (freshChallenge p2 now2 rnd2) := by
    rw [generate_store_get s1 email p2 now2 rnd2 ok2 hvalid]; simp
  refine ⟨g1, generate_store_filter s1 email p2 now2 rnd2 ok2 hwf1 hvalid, g2, rfl, rfl, rfl,
    ?_⟩
  intro hne
  have he : email ≠ "" := emailRegexTest_ne_empty email hvalid
  have ho : (freshChallenge p1 now1 rnd1).otp ≠ "" :=
    sixDigits_ne_empty _ (freshChallenge_sixDigits p1 now1 rnd1)
  by_cases hexp : later > (freshChallenge p2 now2 rnd2).expiresAt
  · rw [verify_expired s2 email _ later _ he ho g2 hexp]; rfl
  · have hexp2 := not_lt.mp hexp
    by_cases hatt : 3 ≤ (freshChallenge p2 now2 rnd2).attempts + 1
    · rw [verify_mismatch_last s2 email _ later _ he ho g2 hexp2 (Ne.symm hne) hatt]; rfl
    · rw [verify_mismatch s2 email _ later _ he ho g2 hexp2 (Ne.symm hne) (not_le.mp hatt)]
      rfl

/-- Witness of C6 (amended): the second call draws 654321 and the old code
123456 is refused. -/
theorem generate_twice_witness :
    (verify
        (generate (generate [] (some sampleEmail) none 0 23456 true).1
          (some sampleEmail) none 1000 554321 true).1
        (some sampleEmail) (some (freshChallenge none 0 23456).otp) 2000).2.success = false :=
  (generate_twice [] sampleEmail none none 0 1000 23456 554321 true true 2000
    (by decide) (by decide)).2.2.2.2.2.2 (by decide)

/-- C7: when the mail send fails, a generate call for a valid email answers
`DeliveryFailed` (status 500, `success = false`) and leaves the store exactly as
the successful call does: the new challenge is stored with `attempts = 0` and
`expiresAt = now + 600000`, and a verify call with its code at a time not after
that succeeds. -/
theorem generate_delivery_failed (s : Store) (email : String) (purpose : Option String)
    (now later : Int) (rnd : Nat) (hvalid : emailRegexTest email = true)
    (hlater : later ≤ now + 600000) :
    (generate s (some email) purpose now rnd false).2 = Reply.deliveryFailed ∧
      (generate s (some email) purpose now rnd false).2.success = false ∧
      (generate s (some email) purpose now rnd false).1 =
        (generate s (some email) purpose now rnd true).1 ∧
      ∃ ch : Challenge,
        Store.get (generate s (some email) purpose now rnd false).1 email = some ch ∧
          ch.otp = toString (randomInt 100000 999999 rnd) ∧
          ch.attempts = 0 ∧ ch.expiresAt = now + 600000 ∧
          verify (generate s (some email) purpose now rnd false).1 (some email)
              (some ch.otp) later =
            (Store.delete (generate s (some email) purpose now rnd false).1 email,
              Reply.verified) := by
  have hr : (generate s (some email) purpose now rnd false).2 = Reply.deliveryFailed := by
    rw [generate_valid s email purpose now rnd false hvalid]; rfl
  have hg : Store.get (generate s (some email) purpose now rnd false).1 email =
      some (freshChallenge purpose now rnd) := by
    rw [generate_store_get s email purpose now rnd false hvalid]; simp
  refine ⟨hr, by rw [hr]; rfl, ?_, freshChallenge purpose now rnd, hg, rfl, rfl, rfl, ?_⟩
  · rw [generate_valid s email purpose now rnd false hvalid,
      generate_valid s email purpose now rnd true hvalid]
  · exact verify_match _ email _ later _ (emailRegexTest_ne_empty email hvalid)
      (sixDigits_ne_empty _ (freshChallenge_sixDigits purpose now rnd)) hg hlater rfl

/-- Witness of C7: a failed send on the empty store, then a verify call with
the drawn code 123456 at the expiry time. -/
theorem generate_delivery_failed_witness :
    (generate [] (some sampleEmail) none 0 23456 false).2 = Reply.deliveryFailed :=
  (generate_delivery_failed [] sampleEmail none 0 600000 23456 (by decide) (by decide)).1

/-- C8: a generate call without an email, or with the empty string, answers
`InvalidInput` ("Email is required"); one with a non-empty email that fails the
pattern answers `InvalidFormat`; in both cases the store is returned as it
was. -/
theorem generate_rejects (s : Store) (purpose : Option String) (now : Int) (rnd : Nat)
    (sendOk : Bool) :
    generate s none purpose now rnd sendOk = (s, Reply.emailRequired) ∧
      generate s (some "") purpose now rnd sendOk = (s, Reply.emailRequired) ∧
      (∀ e : String, e ≠ "" → emailRegexTest e = false →
        generate s (some e) purpose now rnd sendOk = (s, Reply.invalidFormat)) ∧
      generate s (some "not-an-email") purpose now rnd sendOk = (s, Reply.invalidFormat) := by
  have h3 : ∀ e : String, e ≠ "" → emailRegexTest e = false →
      generate s (some e) purpose now rnd sendOk = (s, Reply.invalidFormat) := by
    intro e he h
    simp [generate, he, h, Reply.invalidFormat]
  refine ⟨by simp [generate, Reply.emailRequired], by simp [generate, Reply.emailRequired],
    h3, h3 "not-an-email" (by decide) (by decide)⟩

/-- Witness of C8: the address "a@b" (no dot in the domain) on the sample
store. -/
theorem generate_rejects_witness :
    generate sampleStore (some "a@b") none 0 0 true = (sampleStore, Reply.invalidFormat) :=
  (generate_rejects sampleStore none 0 0 true).2.2.1 "a@b" (by decide) (by decide)

/-! ## Verification: missing input -/

/-- C9: a verify call whose email or code is absent or the empty string
answers `InvalidInput` before any lookup: the store is returned as it was, so a
challenge of that email keeps its attempts count and stays even when it has
expired. -/
theorem verify_rejects_missing (s : Store) (email otp : Option String) (now : Int)
    (h : falsy email = true ∨ falsy otp = true) :
    verify s email otp now = (s, Reply.invalidInput) ∧
      (verify s email otp now).2.status = 400 ∧
      ∀ k : String, Store.get (verify s email otp now).1 k = Store.get s k := by
  have hv := verify_falsy s email otp now h
  refine ⟨hv, by rw [hv]; rfl, fun k => by rw [hv]⟩

/-- Witness of C9: an empty code for the sample address after its expiry. -/
theorem verify_rejects_missing_witness :
    verify sampleStore (some sampleEmail) (some "") 700000 =
      (sampleStore, Reply.invalidInput) :=
  (verify_rejects_missing sampleStore (some sampleEmail) (some "") 700000
    (Or.inr (by decide))).1

/-! ## Status -/

/-- C10: a status call for an email without a challenge answers
`exists: false`; for an email with a challenge it answers `exists: true`, the
attempts count and the number of minutes `round((expiresAt - now) / 60000)`,
halves rounded up, which is at most 0 once `now > expiresAt`. For a challenge
generated at `t0` and not yet tried, a status call at any `now` with
`0 ≤ now - t0 ≤ 30000` answers "10 minutes" and `attempts = 0`. -/
theorem status_reply (s : Store) (email : String) (now : Int) :
    (Store.get s email = none →
        (status s email now).2 = ⟨false, some "No active OTP for this email", none, none⟩) ∧
      (∀ ch : Challenge, Store.get s email = some ch →
        (status s email now).2 =
            ⟨true, none, some (toString (roundMinutes (ch.expiresAt - now)) ++ " minutes"),
              some ch.attempts⟩ ∧
          roundMinutes (ch.expiresAt - now) =
            ⌊((ch.expiresAt - now : Int) : ℚ) / 60000 + 1 / 2⌋ ∧
          (now > ch.expiresAt → roundMinutes (ch.expiresAt - now) ≤ 0)) ∧
      (∀ (purpose : Option String) (t0 : Int) (rnd : Nat) (sendOk : Bool),
        emailRegexTest email = true → 0 ≤ now - t0 → now - t0 ≤ 30000 →
        (status (generate s (some email) purpose t0 rnd sendOk).1 email now).2 =
          ⟨true, none, some "10 minutes", some 0⟩) := by
  refine ⟨?_, ?_, ?_⟩
  · intro h
    simp [status, h]
  · intro ch h
    refine ⟨by simp [status, h], roundMinutes_eq_floor _, ?_⟩
    intro hexp
    unfold roundMinutes
    omega
  · intro purpose t0 rnd sendOk hvalid h0 h1
    have hg : Store.get (generate s (some email) purpose t0 rnd sendOk).1 email =
        some (freshChallenge purpose t0 rnd) := by
      rw [generate_store_get s email purpose t0 rnd sendOk hvalid]; simp
    have hm : roundMinutes ((freshChallenge purpose t0 rnd).expiresAt - now) = 10 := by
      unfold roundMinutes freshChallenge
      simp only
      omega
    simp only [status, hg, hm]
    rfl

/-- Witness of C10: the sample store (generated at time 0) asked at 30000 ms. -/
theorem status_reply_witness :
    (status (generate [] (some sampleEmail) none 0 23456 true).1 sampleEmail 30000).2 =
      ⟨true, none, some "10 minutes", some 0⟩ :=
  (status_reply [] sampleEmail 30000).2.2 none 0 23456 true (by decide) (by decide)
    (by decide)

/-! ## Case analysis of a verify call -/

/-- Every verify call takes one of the six branches of the handler. -/
theorem verify_cases (s : Store) (email otp : Option String) (now : Int) :
    verify s email otp now = (s, Reply.invalidInput) ∨
      ∃ e o : String, email = some e ∧ otp = some o ∧ e ≠ "" ∧ o ≠ "" ∧
        ((Store.get s e = none ∧ verify s email otp now = (s, Reply.notFound)) ∨
          ∃ d : Challenge, Store.get s e = some d ∧
            ((now > d.expiresAt ∧
                verify s email otp now = (Store.delete s e, Reply.expired)) ∨
              (now ≤ d.expiresAt ∧ d.otp = o ∧
                verify s email otp now = (Store.delete s e, Reply.verified)) ∨
              (now ≤ d.expiresAt ∧ d.otp ≠ o ∧ d.attempts + 1 < 3 ∧
                verify s email otp now =
                  (Store.set s e { d with attempts := d.attempts + 1 },
                    Reply.invalidCode (3 - ((d.attempts + 1 : Nat) : Int)))) ∨
              (now ≤ d.expiresAt ∧ d.otp ≠ o ∧ 3 ≤ d.attempts + 1 ∧
                verify s email otp now =
                  (Store.delete (Store.set s e { d with attempts := d.attempts + 1 }) e,
                    Reply.tooManyAttempts)))) := by
  by_cases hf : falsy email = true ∨ falsy otp = true
  · exact Or.inl (verify_falsy s email otp now hf)
  · right
    obtain ⟨e, rfl, he⟩ : ∃ e, email = some e ∧ e ≠ "" := by
      cases email with
      | none => simp [falsy] at hf
      | some e => exact ⟨e, rfl, by intro h; simp [falsy, h] at hf⟩
    obtain ⟨o, rfl, ho⟩ : ∃ o, otp = some o ∧ o ≠ "" := by
      cases otp with
      | none => simp [falsy] at hf
      | some o => exact ⟨o, rfl, by intro h; simp [falsy, h] at hf⟩
    refine ⟨e, o, rfl, rfl, he, ho, ?_⟩
    cases hget : Store.get s e with
    | none => exact Or.inl ⟨rfl, verify_notFound s e o now he ho hget⟩
    | some d =>
      right
      refine ⟨d, rfl, ?_⟩
      by_cases hexp : now > d.expiresAt
      · exact Or.inl ⟨hexp, verify_expired s e o now d he ho hget hexp⟩
      · have hexp2 : now ≤ d.expiresAt := not_lt.mp hexp
        by_cases hcode : d.otp = o
        · exact Or.inr (Or.inl ⟨hexp2, hcode, verify_match s e o now d he ho hget hexp2 hcode⟩)
        · by_cases hatt : 3 ≤ d.attempts + 1
          · exact Or.inr (Or.inr (Or.inr ⟨hexp2, hcode, hatt,
              verify_mismatch_last s e o now d he ho hget hexp2 hcode hatt⟩))
          · exact Or.inr (Or.inr (Or.inl ⟨hexp2, hcode, not_le.mp hatt,
              verify_mismatch s e o now d he ho hget hexp2 hcode (not_le.mp hatt)⟩))

/-- A verify call leaves the entries of all other emails as they were. -/
theorem verify_get_other (s : Store) (email otp : Option String) (now : Int) (k : String)
    (hk : email ≠ some k) :
    Store.get (verify s email otp now).1 k = Store.get s k := by
  rcases verify_cases s email otp now with h | ⟨e, o, rfl, rfl, _, _, h⟩
  · rw [h]
  · have hke : ¬ k = e := fun h => hk (by rw [h])
    rcases h with ⟨_, h⟩ | ⟨d, _, ⟨_, h⟩ | ⟨_, _, h⟩ | ⟨_, _, _, h⟩ | ⟨_, _, _, h⟩⟩ <;>
      rw [h] <;> simp [Store.get_delete, Store.get_set, hke]

/-- The entry of the addressed email after a verify call: it is either gone,
as it was, or as it was with `attempts` one higher. -/
theorem verify_get_self (s : Store) (e : String) (otp : Option String) (now : Int) :
    Store.get (verify s (some e) otp now).1 e = none ∨
      Store.get (verify s (some e) otp now).1 e = Store.get s e ∨
      ∃ d : Challenge, Store.get s e = some d ∧
        Store.get (verify s (some e) otp now).1 e =
          some { d with attempts := d.attempts + 1 } := by
  rcases verify_cases s (some e) otp now with h | ⟨e', o, he', rfl, _, _, h⟩
  · right; left; rw [h]
  · obtain rfl : e = e' := Option.some.inj he'
    rcases h with ⟨_, h⟩ | ⟨d, hd, ⟨_, h⟩ | ⟨_, _, h⟩ | ⟨_, _, _, h⟩ | ⟨_, _, _, h⟩⟩
    · right; left; rw [h]
    · left; rw [h]; simp [Store.get_delete]
    · left; rw [h]; simp [Store.get_delete]
    · right; right; exact ⟨d, hd, by rw [h]; simp [Store.get_set]⟩
    · left; rw [h]; simp [Store.get_delete]

/-! ## The clean-up sweep as a filter -/

theorem Store.get_filter_key (s : Store) (p : String → Bool) (k : String) :
    Store.get (s.filter (fun e => p e.1)) k = if p k = true then Store.get s k else none := by
  induction s with
  | nil => simp [Store.get]
  | cons hd tl ih =>
    obtain ⟨a, b⟩ := hd
    by_cases hak : a = k
    · subst hak
      by_cases hp : p a = true
      · simp [List.filter, hp, Store.get]
      · simp [List.filter, hp, ih]
    · by_cases hp : p a = true
      · simp [List.filter, hp, Store.get, hak, ih]
      · simp [List.filter, hp, Store.get, hak, ih]

theorem cleanup_fold (now : Int) (l : Store) : ∀ acc : Store × Nat,
    l.foldl (fun acc entry =>
        if now > entry.2.expiresAt then (Store.delete acc.1 entry.1, acc.2 + 1) else acc) acc =
      (acc.1.filter (fun e => decide (e.1 ∉ expiredKeys l now)),
        acc.2 + (l.filter (fun entry => decide (now > entry.2.expiresAt))).length) := by
  induction l with
  | nil => intro acc; simp [expiredKeys]
  | cons hd tl ih =>
    intro acc
    simp only [List.foldl_cons]
    rw [ih]
    by_cases hc : now > hd.2.expiresAt
    · have hk : expiredKeys (hd :: tl) now = hd.1 :: expiredKeys tl now := by
        simp [expiredKeys, List.filter, hc]
      simp only [hc, if_true, hk, Store.delete, List.filter_filter, List.filter_cons_of_pos,
        decide_True, List.length_cons, List.mem_cons, not_or]
      refine Prod.ext ?_ ?_
      · simp only
        apply List.filter_congr
        intro x _
        by_cases h1 : x.1 = hd.1 <;> simp [h1]
      · simp only
        omega
    · have hk : expiredKeys (hd :: tl) now = expiredKeys tl now := by
        simp [expiredKeys, List.filter, hc]
      simp [hc, hk, List.filter]

/-- The sweep keeps the entries whose key is not the key of an expired entry,
and counts the expired entries. -/
theorem cleanup_eq (s : Store) (now : Int) :
    cleanup s now =
      (s.filter (fun e => decide (e.1 ∉ expiredKeys s now)),
        (s.filter (fun entry => decide (now > entry.2.expiresAt))).length) := by
  unfold cleanup
  rw [cleanup_fold]
  simp

theorem cleanup_get (s : Store) (now : Int) (k : String) :
    Store.get (cleanup s now).1 k =
      if k ∈ expiredKeys s now then none else Store.get s k := by
  rw [cleanup_eq]
  simp only
  rw [Store.get_filter_key s (fun a => decide (a ∉ expiredKeys s now)) k]
  by_cases h : k ∈ expiredKeys s now <;> simp [h]

theorem mem_expiredKeys (s : Store) (now : Int) (k : String) :
    k ∈ expiredKeys s now ↔ ∃ ch : Challenge, (k, ch) ∈ s ∧ now > ch.expiresAt := by
  simp [expiredKeys]

/-- In a map (one entry per key) a key is swept exactly when its own entry has
expired. -/
theorem mem_expiredKeys_of_nodup (s : Store) (now : Int) (k : String) (ch : Challenge)
    (hnd : (Store.keys s).Nodup) (hmem : (k, ch) ∈ s) :
    k ∈ expiredKeys s now ↔ now > ch.expiresAt := by
  rw [mem_expiredKeys]
  constructor
  · rintro ⟨ch', hmem', hexp⟩
    have := List.inj_on_of_nodup_map hnd hmem hmem' rfl
    cases this
    exact hexp
  · intro hexp
    exact ⟨ch, hmem, hexp⟩

theorem cleanup_eq_of_nodup (s : Store) (now : Int) (hnd : (Store.keys s).Nodup) :
    cleanup s now =
      (s.filter (fun e => !decide (e.2.expiresAt < now)),
        (s.filter (fun e => decide (e.2.expiresAt < now))).length) := by
  rw [cleanup_eq]
  refine Prod.ext ?_ ?_
  · simp only
    apply List.filter_congr
    intro x hx
    have := mem_expiredKeys_of_nodup s now x.1 x.2 hnd hx
    by_cases h : x.2.expiresAt < now
    · simp [h, this.mpr h]
    · have h2 : x.1 ∉ expiredKeys s now := fun hm => h (this.mp hm)
      simp [h, h2]
  · simp

theorem cleanup_get_of_nodup (s : Store) (now : Int) (k : String) (ch : Challenge)
    (hnd : (Store.keys s).Nodup) (hget : Store.get s k = some ch) :
    Store.get (cleanup s now).1 k = if ch.expiresAt < now then none else some ch := by
  rw [cleanup_get]
  have := mem_expiredKeys_of_nodup s now k ch hnd (Store.mem_of_get s k ch hget)
  by_cases h : ch.expiresAt < now
  · simp [h, this.mpr h]
  · have h2 : k ∉ expiredKeys s now := fun hm => h (this.mp hm)
    simp [h, h2, hget]

theorem cleanup_get_none (s : Store) (now : Int) (k : String)
    (hget : Store.get s k = none) : Store.get (cleanup s now).1 k = none := by
  rw [cleanup_get]
  by_cases h : k ∈ expiredKeys s now <;> simp [h, hget]

theorem generate_get_other (s : Store) (email purpose : Option String) (now : Int)
    (rnd : Nat) (sendOk : Bool) (k : String) (hk : email ≠ some k) :
    Store.get (generate s email purpose now rnd sendOk).1 k = Store.get s k := by
  cases email with
  | none => simp [generate]
  | some e =>
    have hke : ¬ k = e := fun h => hk (by rw [h])
    by_cases hvalid : emailRegexTest e = true
    · rw [generate_store_get s e purpose now rnd sendOk hvalid]; simp [hke]
    · by_cases he : e = "" <;> simp [generate, he, hvalid]

theorem status_calls_store (calls : List (String × Int)) : ∀ s : Store,
    calls.foldl (fun st c => (status st c.1 c.2).1) s = s := by
  induction calls with
  | nil => intro s; rfl
  | cons hd tl ih => intro s; simp only [List.foldl_cons]; rw [status_store]; exact ih s

/-! ## Status is read-only -/

/-- C11: a status call returns the store it was given, whatever the email and
the time (an expired challenge included); so after any sequence of status calls
the store, and with it every `attempts` and `expiresAt`, is as before, and a
status call at a given time answers the same after them as before them. -/
theorem status_read_only (s : Store) (email : String) (now : Int) :
    (status s email now).1 = s ∧
      (∀ calls : List (String × Int),
        calls.foldl (fun st c => (status st c.1 c.2).1) s = s) ∧
      (∀ (calls : List (String × Int)) (k : String),
        Store.get (calls.foldl (fun st c => (status st c.1 c.2).1) s) k = Store.get s k) ∧
      ∀ calls : List (String × Int),
        status (calls.foldl (fun st c => (status st c.1 c.2).1) s) email now =
          status s email now := by
  refine ⟨status_store s email now, fun calls => status_calls_store calls s, ?_, ?_⟩
  · intro calls k; rw [status_calls_store]
  · intro calls; rw [status_calls_store]

/-! ## The clean-up sweep -/

/-- C12: on a well-formed store, the sweep at time `now` removes exactly the
entries with `expiresAt < now`: the store afterwards is the list of the other
entries, unchanged and in their order (an entry with `expiresAt = now` stays),
the reported count is the number `M` of entries with `expiresAt < now`, the
`N - M` others remain, and the store is unchanged when `M = 0`. -/
theorem cleanup_removes_expired (s : Store) (now : Int) (hwf : Store.WF s) :
    (cleanup s now).1 = s.filter (fun e => !decide (e.2.expiresAt < now)) ∧
      (cleanup s now).2 = (s.filter (fun e => decide (e.2.expiresAt < now))).length ∧
      (cleanup s now).1.length =
        s.length - (s.filter (fun e => decide (e.2.expiresAt < now))).length ∧
      (∀ (k : String) (ch : Challenge), Store.get s k = some ch →
        Store.get (cleanup s now).1 k = if ch.expiresAt < now then none else some ch) ∧
      (∀ k : String, Store.get s k = none → Store.get (cleanup s now).1 k = none) ∧
      ((s.filter (fun e => decide (e.2.expiresAt < now))).length = 0 →
        cleanup s now = (s, 0)) := by
  have heq := cleanup_eq_of_nodup s now hwf.1
  have hlen := @List.length_eq_length_filter_add _ s (fun e => decide (e.2.expiresAt < now))
  refine ⟨by rw [heq], by rw [heq], ?_, ?_, fun k hk => cleanup_get_none s now k hk, ?_⟩
  · rw [heq]; simp only; omega
  · intro k ch hget
    exact cleanup_get_of_nodup s now k ch hwf.1 hget
  · intro h0
    rw [heq, h0]
    refine Prod.ext ?_ rfl
    simp only
    rw [List.filter_eq_self]
    intro x hx
    have hnil := List.length_eq_zero.mp h0
    have hx2 : x ∉ s.filter (fun e => decide (e.2.expiresAt < now)) := by rw [hnil]; simp
    by_cases h : x.2.expiresAt < now
    · exact absurd (List.mem_filter.mpr ⟨hx, by simpa using h⟩) hx2
    · simp [h]

/-- Witness of C12: of the two entries of `twoStore` (expiring at 600000 and
601000) the sweep at 600500 removes the first and reports 1. -/
theorem cleanup_removes_expired_witness :
    (cleanup twoStore 600500).2 =
      (twoStore.filter (fun e => decide (e.2.expiresAt < 600500))).length :=
  (cleanup_removes_expired twoStore 600500 (by decide)).2.1

/-! ## Attempts never decrease; a removed challenge stays removed -/

/-- C13: for an email that holds a challenge before and after a verify call, a
status call or a sweep, `attempts` afterwards is at least `attempts` before. On
every store (the empty one and one holding a tried challenge included) a
generate call for an email that passes the pattern leaves that email with a
challenge whose `attempts` is 0; and on a well-formed store, whatever the email,
a challenge held by the email of a generate call after the call has
`attempts = 0`. -/
theorem attempts_monotone (s : Store) (k : String) :
    (∀ (old new : Challenge) (email otp : Option String) (now : Int),
        Store.get s k = some old → Store.get (verify s email otp now).1 k = some new →
        old.attempts ≤ new.attempts) ∧
      (∀ (old new : Challenge) (email : String) (now : Int),
        Store.get s k = some old → Store.get (status s email now).1 k = some new →
        old.attempts ≤ new.attempts) ∧
      (∀ (old new : Challenge) (now : Int),
        Store.get s k = some old → Store.get (cleanup s now).1 k = some new →
        old.attempts ≤ new.attempts) ∧
      (∀ (purpose : Option String) (now : Int) (rnd : Nat) (sendOk : Bool),
        emailRegexTest k = true →
        ∃ ch : Challenge,
          Store.get (generate s (some k) purpose now rnd sendOk).1 k = some ch ∧
            ch.attempts = 0) ∧
      ∀ (purpose : Option String) (now : Int) (rnd : Nat) (sendOk : Bool) (ch : Challenge),
        Store.WF s → Store.get (generate s (some k) purpose now rnd sendOk).1 k = some ch →
        ch.attempts = 0 := by
  refine ⟨?_, ?_, ?_, ?_, ?_⟩
  · intro old new email otp now hold hnew
    by_cases hk : email = some k
    · subst hk
      rcases verify_get_self s k otp now with h | h | ⟨d, hd, h⟩
      · rw [h] at hnew; cases hnew
      · rw [h, hold] at hnew; cases hnew; exact le_rfl
      · rw [h] at hnew
        rw [hold] at hd
        cases hd; cases hnew
        exact Nat.le_succ _
    · rw [verify_get_other s email otp now k hk, hold] at hnew
      cases hnew; exact le_rfl
  · intro old new email now hold hnew
    rw [status_store, hold] at hnew
    cases hnew; exact le_rfl
  · intro old new now hold hnew
    rw [cleanup_get] at hnew
    by_cases h : k ∈ expiredKeys s now
    · simp [h] at hnew
    · simp only [h, if_false] at hnew
      rw [hold] at hnew
      cases hnew; exact le_rfl
  · intro purpose now rnd sendOk hvalid
    refine ⟨freshChallenge purpose now rnd, ?_, rfl⟩
    rw [generate_store_get s k purpose now rnd sendOk hvalid]; simp
  · intro purpose now rnd sendOk ch hwf hget
    by_cases hvalid : emailRegexTest k = true
    · rw [generate_store_get s k purpose now rnd sendOk hvalid] at hget
      simp only [if_true] at hget
      cases hget; rfl
    · have hs : (generate s (some k) purpose now rnd sendOk).1 = s := by
        by_cases he : k = "" <;> simp [generate, he, hvalid]
      rw [hs] at hget
      exact absurd (hwf.2 (k, ch) (Store.mem_of_get s k ch hget)).1 hvalid

/-- Witness of C13: a wrong code for the sample address raises `attempts` from
0 to 1, and a generate call on the empty store leaves a challenge with
`attempts = 0`. -/
theorem attempts_monotone_witness :
    (Store.get (verify sampleStore (some sampleEmail) (some "000000") 0).1 sampleEmail =
        some ⟨"123456", 600000, "email-verification", 1⟩ ∧
      (⟨"123456", 600000, "email-verification", 0⟩ : Challenge).attempts ≤
        (⟨"123456", 600000, "email-verification", 1⟩ : Challenge).attempts) ∧
      ∃ ch : Challenge,
        Store.get (generate [] (some sampleEmail) none 0 23456 true).1 sampleEmail = some ch ∧
          ch.attempts = 0 :=
  ⟨⟨by decide,
    (attempts_monotone sampleStore sampleEmail).1 ⟨"123456", 600000, "email-verification", 0⟩
      ⟨"123456", 600000, "email-verification", 1⟩ (some sampleEmail) (some "000000") 0
      (by decide) (by decide)⟩,
    (attempts_monotone [] sampleEmail).2.2.2.1 none 0 23456 true (by decide)⟩

/-- C14: after a verify call, a status call or a sweep, every email that holds
a challenge held one before the operation; so an email without a challenge has
none after any of these operations, and none after a generate call made for a
different email. -/
theorem no_reentry_without_generate (s : Store) (k : String) :
    (∀ (email otp : Option String) (now : Int),
        (Store.get (verify s email otp now).1 k).isSome = true →
          (Store.get s k).isSome = true) ∧
      (∀ (email : String) (now : Int),
        (Store.get (status s email now).1 k).isSome = true → (Store.get s k).isSome = true) ∧
      (∀ now : Int,
        (Store.get (cleanup s now).1 k).isSome = true → (Store.get s k).isSome = true) ∧
      (∀ (email otp : Option String) (now : Int),
        Store.keys (verify s email otp now).1 ⊆ Store.keys s) ∧
      (∀ (email : String) (now : Int), Store.keys (status s email now).1 ⊆ Store.keys s) ∧
      (∀ now : Int, Store.keys (cleanup s now).1 ⊆ Store.keys s) ∧
      (Store.get s k = none →
        (∀ (email otp : Option String) (now : Int),
          Store.get (verify s email otp now).1 k = none) ∧
        (∀ (email : String) (now : Int), Store.get (status s email now).1 k = none) ∧
        (∀ now : Int, Store.get (cleanup s now).1 k = none) ∧
        ∀ (email purpose : Option String) (now : Int) (rnd : Nat) (sendOk : Bool),
          email ≠ some k → Store.get (generate s email purpose now rnd sendOk).1 k = none) := by
  have hv : ∀ (j : String) (email otp : Option String) (now : Int),
      (Store.get (verify s email otp now).1 j).isSome = true →
        (Store.get s j).isSome = true := by
    intro j email otp now h
    by_cases hk : email = some j
    · subst hk
      rcases verify_get_self s j otp now with h1 | h1 | ⟨d, hd, _⟩
      · rw [h1] at h; cases h
      · rwa [h1] at h
      · rw [hd]; rfl
    · rwa [verify_get_other s email otp now j hk] at h
  have hc : ∀ (j : String) (now : Int),
      (Store.get (cleanup s now).1 j).isSome = true → (Store.get s j).isSome = true := by
    intro j now h
    rw [cleanup_get] at h
    by_cases hm : j ∈ expiredKeys s now
    · simp [hm] at h
    · simpa [hm] using h
  have hnone : ∀ o : Option Challenge, ¬ (o.isSome = true) → o = none := by
    intro o h; cases o with
    | none => rfl
    | some _ => exact absurd rfl h
  refine ⟨hv k, ?_, hc k, ?_, ?_, ?_, ?_⟩
  · intro email now h; rwa [status_store] at h
  · intro email otp now j hj
    exact (Store.get_isSome_iff_mem_keys s j).mp
      (hv j email otp now ((Store.get_isSome_iff_mem_keys _ j).mpr hj))
  · intro email now; rw [status_store]; exact List.Subset.refl _
  · intro now j hj
    exact (Store.get_isSome_iff_mem_keys s j).mp
      (hc j now ((Store.get_isSome_iff_mem_keys _ j).mpr hj))
  · intro h0
    have hs : ¬ ((Store.get s k).isSome = true) := by rw [h0]; simp
    refine ⟨fun email otp now => hnone _ (fun h => hs (hv k email otp now h)), ?_,
      fun now => hnone _ (fun h => hs (hc k now h)), ?_⟩
    · intro email now; rw [status_store]; exact h0
    · intro email purpose now rnd sendOk hk
      rw [generate_get_other s email purpose now rnd sendOk k hk]; exact h0

/-- Witness of C14: after the sample challenge is consumed by a correct code,
a later wrong code does not bring it back. -/
theorem no_reentry_without_generate_witness :
    Store.get (verify (Store.delete sampleStore sampleEmail) (some sampleEmail)
      (some "000000") 5).1 sampleEmail = none :=
  ((no_reentry_without_generate (Store.delete sampleStore sampleEmail) sampleEmail).2.2.2.2.2.2
    (by decide)).1 (some sampleEmail) (some "000000") 5

/-! ## The sweep and verification -/

/-- A verify call succeeds exactly when both fields are present and non-empty,
the email holds a challenge that has not expired, and the code is the stored
one. -/
theorem verify_success_iff (s : Store) (email otp : Option String) (now : Int) :
    (verify s email otp now).2.success = true ↔
      ∃ (e o : String) (d : Challenge), email = some e ∧ otp = some o ∧ e ≠ "" ∧ o ≠ "" ∧
        Store.get s e = some d ∧ now ≤ d.expiresAt ∧ d.otp = o := by
  constructor
  · intro hs
    rcases verify_cases s email otp now with h | ⟨e, o, he, ho, hne, hno, h⟩
    · rw [h] at hs; simp [Reply.invalidInput] at hs
    · rcases h with ⟨_, h⟩ | ⟨d, hd, ⟨_, h⟩ | ⟨hexp, hcode, _⟩ | ⟨_, _, _, h⟩ | ⟨_, _, _, h⟩⟩
      · rw [h] at hs; simp [Reply.notFound] at hs
      · rw [h] at hs; simp [Reply.expired] at hs
      · exact ⟨e, o, d, he, ho, hne, hno, hd, hexp, hcode⟩
      · rw [h] at hs; simp [Reply.invalidCode] at hs
      · rw [h] at hs; simp [Reply.tooManyAttempts] at hs
  · rintro ⟨e, o, d, rfl, rfl, hne, hno, hd, hexp, hcode⟩
    rw [verify_match s e o now d hne hno hd hexp hcode]
    rfl

theorem verify_verified_iff_success (s : Store) (email otp : Option String) (now : Int) :
    (verify s email otp now).2 = Reply.verified ↔ (verify s email otp now).2.success = true := by
  constructor
  · intro h; rw [h]; rfl
  · intro hs
    obtain ⟨e, o, d, rfl, rfl, hne, hno, hd, hexp, hcode⟩ :=
      (verify_success_iff s email otp now).mp hs
    rw [verify_match s e o now d hne hno hd hexp hcode]

/-- C15: on a well-formed store, a verify call at time `now` succeeds on the
store left by the sweep at `now` exactly when it succeeds on the store as it
was; and an entry that the sweep at `now` removes has `now > expiresAt`, so a
verify call at `now` for it (with a non-empty code) answers `Expired`. -/
theorem cleanup_keeps_verify (s : Store) (now : Int) (email otp : Option String)
    (hwf : Store.WF s) :
    ((verify (cleanup s now).1 email otp now).2 = Reply.verified ↔
        (verify s email otp now).2 = Reply.verified) ∧
      ((verify (cleanup s now).1 email otp now).2.success = true ↔
        (verify s email otp now).2.success = true) ∧
      ∀ (k : String) (ch : Challenge), Store.get s k = some ch →
        Store.get (cleanup s now).1 k = none →
        now > ch.expiresAt ∧
          ∀ code : String, code ≠ "" →
            verify s (some k) (some code) now = (Store.delete s k, Reply.expired) := by
  have hsucc : (verify (cleanup s now).1 email otp now).2.success = true ↔
      (verify s email otp now).2.success = true := by
    rw [verify_success_iff, verify_success_iff]
    constructor
    · rintro ⟨e, o, d, he, ho, hne, hno, hd, hexp, hcode⟩
      refine ⟨e, o, d, he, ho, hne, hno, ?_, hexp, hcode⟩
      rw [cleanup_get] at hd
      by_cases hm : e ∈ expiredKeys s now
      · simp [hm] at hd
      · simpa [hm] using hd
    · rintro ⟨e, o, d, he, ho, hne, hno, hd, hexp, hcode⟩
      refine ⟨e, o, d, he, ho, hne, hno, ?_, hexp, hcode⟩
      rw [cleanup_get_of_nodup s now e d hwf.1 hd, if_neg (not_lt.mpr hexp)]
  refine ⟨?_, hsucc, ?_⟩
  · rw [verify_verified_iff_success, verify_verified_iff_success]; exact hsucc
  · intro k ch hget hgone
    rw [cleanup_get_of_nodup s now k ch hwf.1 hget] at hgone
    have hexp : ch.expiresAt < now := by
      by_contra h
      simp [h] at hgone
    refine ⟨hexp, fun code hcode => ?_⟩
    exact verify_expired s k code now ch (Store.WF_key_ne_empty s k ch hwf hget).1 hcode hget
      hexp

/-- Witness of C15: the sweep of `twoStore` at 600500 removes the sample
address, whose challenge expired at 600000, and a verify call for it at 600500
answers `Expired`. -/
theorem cleanup_keeps_verify_witness :
    Store.get (cleanup twoStore 600500).1 sampleEmail = none ∧
      verify twoStore (some sampleEmail) (some "123456") 600500 =
        (Store.delete twoStore sampleEmail, Reply.expired) :=
  ⟨by decide,
    ((cleanup_keeps_verify twoStore 600500 (some sampleEmail) (some "123456")
      (by decide)).2.2 sampleEmail ⟨"123456", 600000, "email-verification", 0⟩ (by decide)
      (by decide)).2 "123456" (by decide)⟩

/-! ## Keys are the email strings as submitted -/

/-- The answer of a verify call depends on the store only through the entry of
the addressed email. -/
theorem verify_reply_congr (s t : Store) (e : String) (otp : Option String) (now : Int)
    (h : Store.get s e = Store.get t e) :
    (verify s (some e) otp now).2 = (verify t (some e) otp now).2 := by
  cases otp with
  | none => simp [verify]
  | some o =>
    by_cases hf : e = "" ∨ o = ""
    · simp [verify, hf]
    · simp only [verify, hf, if_false, h]
      cases Store.get t e with
      | none => rfl
      | some d =>
        simp only
        by_cases hexp : now > d.expiresAt
        · simp [hexp]
        · by_cases hcode : d.otp = o
          · simp [hexp, hcode]
          · by_cases hatt : d.attempts + 1 ≥ 3
            · simp [hexp, hcode, hatt]
            · simp [hexp, hcode, hatt]

/-- C16, as stated, fails: the store is keyed by the email string as submitted.
After a generate call for "User@Example.com" (code 123456), a verify call for
"user@example.com" with that code answers `NotFound`, a status call for
"user@example.com" answers `exists: false`, and a generate call for
"user@example.com" adds a second entry and leaves the first in place. -/
theorem case_variant_is_other_key :
    Store.get (generate [] (some "User@Example.com") none 0 23456 true).1 "User@Example.com" =
        some ⟨"123456", 600000, "email-verification", 0⟩ ∧
      verify (generate [] (some "User@Example.com") none 0 23456 true).1
          (some "user@example.com") (some "123456") 1000 =
        ((generate [] (some "User@Example.com") none 0 23456 true).1, Reply.notFound) ∧
      (status (generate [] (some "User@Example.com") none 0 23456 true).1
          "user@example.com" 1000).2 =
        ⟨false, some "No active OTP for this email", none, none⟩ ∧
      (generate (generate [] (some "User@Example.com") none 0 23456 true).1
          (some "user@example.com") none 5 7 true).1 =
        [("User@Example.com", ⟨"123456", 600000, "email-verification", 0⟩),
         ("user@example.com", ⟨"100007", 600005, "email-verification", 0⟩)] := by
  decide

/-- C16 (amended): challenges are keyed by the email string exactly as
submitted. A generate call for a valid email stores its challenge under that
string; for every other string (one differing only in letter case included) the
entry is as before the call, verify and status calls answer as before the call,
and a later generate call for the other string leaves the first challenge in
place. -/
theorem keyed_by_exact_string (s : Store) (email other : String) (purpose : Option String)
    (now : Int) (rnd : Nat) (sendOk : Bool)
    (hvalid : emailRegexTest email = true) (hother : other ≠ email) :
    Store.get (generate s (some email) purpose now rnd sendOk).1 email =
        some (freshChallenge purpose now rnd) ∧
      Store.get (generate s (some email) purpose now rnd sendOk).1 other = Store.get s other ∧
      (∀ (otp : Option String) (t : Int),
        (verify (generate s (some email) purpose now rnd sendOk).1 (some other) otp t).2 =
          (verify s (some other) otp t).2) ∧
      (∀ t : Int,
        (status (generate s (some email) purpose now rnd sendOk).1 other t).2 =
          (status s other t).2) ∧
      ∀ (purpose2 : Option String) (now2 : Int) (rnd2 : Nat) (sendOk2 : Bool),
        Store.get (generate (generate s (some email) purpose now rnd sendOk).1 (some other)
            purpose2 now2 rnd2 sendOk2).1 email =
          some (freshChallenge purpose now rnd) := by
  have hself : Store.get (generate s (some email) purpose now rnd sendOk).1 email =
      some (freshChallenge purpose now rnd) := by
    rw [generate_store_get s email purpose now rnd sendOk hvalid]; simp
  have hoth : Store.get (generate s (some email) purpose now rnd sendOk).1 other =
      Store.get s other :=
    generate_get_other s (some email) purpose now rnd sendOk other
      (fun h => hother (Option.some.inj h).symm)
  refine ⟨hself, hoth, fun otp t => verify_reply_congr _ _ other otp t hoth, ?_, ?_⟩
  · intro t
    simp only [status, hoth]
    cases Store.get s other <;> rfl
  · intro purpose2 now2 rnd2 sendOk2
    rw [generate_get_other _ (some other) purpose2 now2 rnd2 sendOk2 email
      (fun h => hother (Option.some.inj h))]
    exact hself

/-- Witness of C16 (amended): "User@Example.com" and "user@example.com". -/
theorem keyed_by_exact_string_witness :
    Store.get (generate [] (some "User@Example.com") none 0 23456 true).1 "user@example.com" =
      Store.get [] "user@example.com" :=
  (keyed_by_exact_string [] "User@Example.com" "user@example.com" none 0 23456 true
    (by decide) (by decide)).2.1

/-! ## The email pattern, piece by piece -/

theorem matchPieces_nil (cs : List Char) : matchPieces [] cs = true ↔ cs = [] := by
  cases cs <;> simp [matchPieces]

theorem matchPieces_one (p : Char → Bool) (ps : List Piece) (cs : List Char) :
    matchPieces (Piece.one p :: ps) cs = true ↔
      ∃ (c : Char) (rest : List Char), cs = c :: rest ∧ p c = true ∧
        matchPieces ps rest = true := by
  cases cs with
  | nil => simp [matchPieces]
  | cons c rest =>
    simp only [matchPieces, Bool.and_eq_true]
    constructor
    · rintro ⟨h1, h2⟩
      exact ⟨c, rest, rfl, h1, h2⟩
    · rintro ⟨c2, rest2, h, h1, h2⟩
      cases h
      exact ⟨h1, h2⟩

theorem matchPieces_plus (p : Char → Bool) (ps : List Piece) (cs : List Char) :
    matchPieces (Piece.plus p :: ps) cs = true ↔
      ∃ a rest : List Char, cs = a ++ rest ∧ a ≠ [] ∧ (∀ c ∈ a, p c = true) ∧
        matchPieces ps rest = true := by
  induction cs with
  | nil =>
    simp only [matchPieces, Bool.false_eq_true, false_iff]
    rintro ⟨a, rest, h, ha, _⟩
    cases a with
    | nil => exact ha rfl
    | cons x a => cases h
  | cons c cs ih =>
    simp only [matchPieces, Bool.and_eq_true, Bool.or_eq_true]
    constructor
    · rintro ⟨hc, h | h⟩
      · obtain ⟨a, rest, rfl, _, hall, hrest⟩ := ih.mp h
        refine ⟨c :: a, rest, rfl, by simp, ?_, hrest⟩
        intro x hx
        rcases List.mem_cons.mp hx with rfl | hx
        · exact hc
        · exact hall x hx
      · exact ⟨[c], cs, rfl, by simp, by simpa using hc, h⟩
    · rintro ⟨a, rest, h, ha, hall, hrest⟩
      cases a with
      | nil => exact absurd rfl ha
      | cons x a =>
        simp only [List.cons_append, List.cons.injEq] at h
        obtain ⟨rfl, rfl⟩ := h
        refine ⟨hall c (List.mem_cons_self _ _), ?_⟩
        cases a with
        | nil => right; simpa using hrest
        | cons y a =>
          left
          exact ih.mpr ⟨y :: a, rest, rfl, by simp, fun z hz =>
            hall z (List.mem_cons_of_mem _ hz), hrest⟩

/-- The pattern accepts exactly the strings `a @ b . c` with `a`, `b`, `c`
non-empty runs of characters of the class `[^\s@]`. -/
theorem emailRegexTest_iff_split (e : String) :
    emailRegexTest e = true ↔
      ∃ a b c : List Char, e.toList = a ++ '@' :: (b ++ '.' :: c) ∧
        a ≠ [] ∧ b ≠ [] ∧ c ≠ [] ∧ (∀ x ∈ a, notSpaceAt x = true) ∧
        (∀ x ∈ b, notSpaceAt x = true) ∧ ∀ x ∈ c, notSpaceAt x = true := by
  unfold emailRegexTest emailRegex
  constructor
  · intro h
    obtain ⟨a, r1, h1, ha, halla, h⟩ := (matchPieces_plus _ _ _).mp h
    obtain ⟨x1, r2, h2, hx1, h⟩ := (matchPieces_one _ _ _).mp h
    obtain ⟨b, r3, h3, hb, hallb, h⟩ := (matchPieces_plus _ _ _).mp h
    obtain ⟨x2, r4, h4, hx2, h⟩ := (matchPieces_one _ _ _).mp h
    obtain ⟨c, r5, h5, hc, hallc, h⟩ := (matchPieces_plus _ _ _).mp h
    have h6 := (matchPieces_nil r5).mp h
    have e1 : x1 = '@' := by simpa using hx1
    have e2 : x2 = '.' := by simpa using hx2
    subst h6 e1 e2 h5 h4 h3 h2
    exact ⟨a, b, c, by simpa using h1, ha, hb, hc, halla, hallb, hallc⟩
  · rintro ⟨a, b, c, h, ha, hb, hc, halla, hallb, hallc⟩
    rw [h]
    refine (matchPieces_plus _ _ _).mpr ⟨a, _, rfl, ha, halla, ?_⟩
    refine (matchPieces_one _ _ _).mpr ⟨'@', _, rfl, by simp, ?_⟩
    refine (matchPieces_plus _ _ _).mpr ⟨b, _, rfl, hb, hallb, ?_⟩
    refine (matchPieces_one _ _ _).mpr ⟨'.', _, rfl, by simp, ?_⟩
    refine (matchPieces_plus _ _ _).mpr ⟨c, [], by simp, hc, hallc, ?_⟩
    exact (matchPieces_nil []).mpr rfl

theorem notSpaceAt_iff (x : Char) :
    notSpaceAt x = true ↔ isWhiteSpace x = false ∧ x ≠ '@' := by
  simp [notSpaceAt]

/-- The strings the pattern accepts are those of the form described in the
specification. -/
theorem emailRegexTest_iff_form (e : String) :
    emailRegexTest e = true ↔ EmailForm e.toList := by
  rw [emailRegexTest_iff_split]
  constructor
  · rintro ⟨a, b, c, h, ha, hb, hc, halla, hallb, hallc⟩
    have na : ∀ l : List Char, (∀ x ∈ l, notSpaceAt x = true) → l.count '@' = 0 := by
      intro l hl
      rw [List.count_eq_zero]
      intro hm
      exact ((notSpaceAt_iff _).mp (hl _ hm)).2 rfl
    refine ⟨?_, ?_, a, b ++ '.' :: c, h, ha, b, c, rfl, hb, hc⟩
    · intro x hx
      rw [h] at hx
      simp only [List.mem_append, List.mem_cons] at hx
      rcases hx with hx | rfl | hx | rfl | hx
      · exact ((notSpaceAt_iff _).mp (halla x hx)).1
      · decide
      · exact ((notSpaceAt_iff _).mp (hallb x hx)).1
      · decide
      · exact ((notSpaceAt_iff _).mp (hallc x hx)).1
    · rw [h]
      simp [List.count_append, List.count_cons, na a halla, na b hallb, na c hallc]
  · rintro ⟨hws, hcount, loc, dom, h, hloc, b, c, hdom, hb, hc⟩
    subst hdom
    rw [h] at hcount
    simp only [List.count_append, List.count_cons, beq_self_eq_true, if_true] at hcount
    have hdot : (('.' : Char) == '@') = false := by decide
    simp only [hdot, Bool.false_eq_true, if_false, Nat.add_zero] at hcount
    have ca : loc.count '@' = 0 := by omega
    have cb : b.count '@' = 0 := by omega
    have cc : c.count '@' = 0 := by omega
    have mk : ∀ l : List Char, l.count '@' = 0 → (∀ x ∈ l, x ∈ e.toList) →
        ∀ x ∈ l, notSpaceAt x = true := by
      intro l hl hsub x hx
      refine (notSpaceAt_iff x).mpr ⟨hws x (hsub x hx), ?_⟩
      rintro rfl
      exact (List.count_eq_zero.mp hl) hx
    refine ⟨loc, b, c, h, hloc, hb, hc, mk loc ca ?_, mk b cb ?_, mk c cc ?_⟩
    · intro x hx; rw [h]; simp [hx]
    · intro x hx; rw [h]; simp [hx]
    · intro x hx; rw [h]; simp [hx]

/-- C17: the pattern check accepts a string exactly when it has the form
local-part "@" domain-with-dot of the specification (no white space, exactly
one "@", a non-empty part before it, and after it a part containing a "." with
at least one character on each side); a generate call with any other non-empty
string answers `InvalidFormat`, and one with a string of that form does not. -/
theorem emailRegex_accepts_form (e : String) (s : Store) (purpose : Option String)
    (now : Int) (rnd : Nat) (sendOk : Bool) :
    (emailRegexTest e = true ↔ EmailForm e.toList) ∧
      (e ≠ "" → ¬ EmailForm e.toList →
        generate s (some e) purpose now rnd sendOk = (s, Reply.invalidFormat)) ∧
      (EmailForm e.toList →
        (generate s (some e) purpose now rnd sendOk).2 ≠ Reply.invalidFormat) := by
  refine ⟨emailRegexTest_iff_form e, ?_, ?_⟩
  · intro he hform
    have h : emailRegexTest e = false := by
      cases hb : emailRegexTest e with
      | false => rfl
      | true => exact absurd ((emailRegexTest_iff_form e).mp hb) hform
    simp [generate, he, h, Reply.invalidFormat]
  · intro hform
    have hvalid := (emailRegexTest_iff_form e).mpr hform
    rw [generate_valid s e purpose now rnd sendOk hvalid]
    cases sendOk <;> simp [Reply.sent, Reply.deliveryFailed, Reply.invalidFormat]

/-- Witness of C17: "not-an-email" has no "@" and is answered with
`InvalidFormat`. -/
theorem emailRegex_accepts_form_witness :
    generate sampleStore (some "not-an-email") none 0 0 true =
      (sampleStore, Reply.invalidFormat) :=
  (emailRegex_accepts_form "not-an-email" sampleStore none 0 0 true).2.1 (by decide)
    (fun h => absurd h.2.1 (by decide))

/-! ## What a verify call changes -/

/-- C18: a verify call that answers `InvalidCode` leaves the challenge of the
addressed email with the same code, `expiresAt` and purpose and with `attempts`
one higher; any verify call leaves the entries of all other emails as they
were, and the entry of the addressed email is afterwards either gone, as it
was, or as it was with `attempts` one higher. -/
theorem verify_frame (s : Store) (email otp : Option String) (now : Int) :
    (∀ n : Int, (verify s email otp now).2 = Reply.invalidCode n →
        ∃ (e : String) (d : Challenge), email = some e ∧ Store.get s e = some d ∧
          Store.get (verify s email otp now).1 e =
            some ⟨d.otp, d.expiresAt, d.purpose, d.attempts + 1⟩ ∧
          n = 3 - ((d.attempts + 1 : Nat) : Int)) ∧
      (∀ k : String, email ≠ some k →
        Store.get (verify s email otp now).1 k = Store.get s k) ∧
      ∀ e : String, email = some e →
        Store.get (verify s email otp now).1 e = none ∨
          Store.get (verify s email otp now).1 e = Store.get s e ∨
          ∃ d : Challenge, Store.get s e = some d ∧
            Store.get (verify s email otp now).1 e =
              some ⟨d.otp, d.expiresAt, d.purpose, d.attempts + 1⟩ := by
  refine ⟨?_, fun k hk => verify_get_other s email otp now k hk, ?_⟩
  · intro n hn
    rcases verify_cases s email otp now with h | ⟨e, o, he, _, _, _, h⟩
    · rw [h] at hn; simp [Reply.invalidInput, Reply.invalidCode] at hn
    · rcases h with ⟨_, h⟩ | ⟨d, hd, ⟨_, h⟩ | ⟨_, _, h⟩ | ⟨_, _, _, h⟩ | ⟨_, _, _, h⟩⟩
      · rw [h] at hn; simp [Reply.notFound, Reply.invalidCode] at hn
      · rw [h] at hn; simp [Reply.expired, Reply.invalidCode] at hn
      · rw [h] at hn; simp [Reply.verified, Reply.invalidCode] at hn
      · refine ⟨e, d, he, hd, ?_, ?_⟩
        · rw [h]; simp [Store.get_set]
        · rw [h] at hn
          simp only [Reply.invalidCode, Reply.mk.injEq, Option.some.injEq, true_and] at hn
          exact hn.symm
      · rw [h] at hn; simp [Reply.tooManyAttempts, Reply.invalidCode] at hn
  · intro e he
    subst he
    exact verify_get_self s e otp now

/-- Witness of C18: a wrong code for the sample address. -/
theorem verify_frame_witness :
    ∃ (e : String) (d : Challenge), some sampleEmail = some e ∧
      Store.get sampleStore e = some d ∧
      Store.get (verify sampleStore (some sampleEmail) (some "000000") 0).1 e =
        some ⟨d.otp, d.expiresAt, d.purpose, d.attempts + 1⟩ ∧
      (2 : Int) = 3 - ((d.attempts + 1 : Nat) : Int) :=
  (verify_frame sampleStore (some sampleEmail) (some "000000") 0).1 2 (by decide)

/-! ## Attempts stay below the limit -/

theorem Store.mem_delete_ne (s : Store) (k : String) (x : String × Challenge)
    (h : x ∈ Store.delete s k) : x.1 ≠ k := by
  unfold Store.delete at h
  simpa using (List.mem_filter.mp h).2

theorem generate_store_cases (s : Store) (email purpose : Option String) (now : Int)
    (rnd : Nat) (sendOk : Bool) :
    (generate s email purpose now rnd sendOk).1 = s ∨
      ∃ e : String, (generate s email purpose now rnd sendOk).1 =
        Store.set s e (freshChallenge purpose now rnd) := by
  cases email with
  | none => left; simp [generate]
  | some e =>
    by_cases hvalid : emailRegexTest e = true
    · right; exact ⟨e, by rw [generate_valid s e purpose now rnd sendOk hvalid]⟩
    · left; by_cases he : e = "" <;> simp [generate, he, hvalid]

/-- In every reachable state each stored challenge has fewer than 3 failed
attempts. -/
theorem Reachable.attempts_lt (s : Store) (h : Reachable s) :
    ∀ x ∈ s, x.2.attempts < 3 := by
  induction h with
  | atStart => intro x hx; cases hx
  | afterGenerate s email purpose now rnd sendOk _ ih =>
    intro x hx
    rcases generate_store_cases s email purpose now rnd sendOk with h | ⟨e, h⟩
    · rw [h] at hx; exact ih x hx
    · rw [h] at hx
      rcases Store.mem_set s e _ x hx with h1 | h1
      · exact ih x h1
      · subst h1; simp [freshChallenge]
  | afterVerify s email otp now _ ih =>
    intro x hx
    rcases verify_cases s email otp now with h | ⟨e, o, _, _, _, _, h⟩
    · rw [h] at hx; exact ih x hx
    · rcases h with ⟨_, h⟩ | ⟨d, hd, ⟨_, h⟩ | ⟨_, _, h⟩ | ⟨_, _, hatt, h⟩ | ⟨_, _, _, h⟩⟩
      · rw [h] at hx; exact ih x hx
      · rw [h] at hx; exact ih x (Store.mem_delete s e x hx)
      · rw [h] at hx; exact ih x (Store.mem_delete s e x hx)
      · rw [h] at hx
        rcases Store.mem_set s e _ x hx with h1 | h1
        · exact ih x h1
        · subst h1; exact hatt
      · rw [h] at hx
        have hne := Store.mem_delete_ne _ e x hx
        rcases Store.mem_set s e _ x (Store.mem_delete _ e x hx) with h1 | h1
        · exact ih x h1
        · subst h1; exact absurd rfl hne
  | afterStatus s email now _ ih => rw [status_store]; exact ih
  | afterCleanup s now _ ih =>
    intro x hx
    rw [cleanup_eq] at hx
    exact ih x (List.mem_filter.mp hx).1

/-- C19: in every store reachable from the empty store by generate, verify,
status and sweep calls, every stored challenge has `attempts` 0, 1 or 2; and
every `InvalidCode` answer of a verify call on such a store carries
`attemptsLeft` 1 or 2. -/
theorem reachable_attempts_bound (s : Store) (h : Reachable s) :
    (∀ x ∈ s, x.2.attempts = 0 ∨ x.2.attempts = 1 ∨ x.2.attempts = 2) ∧
      (∀ (k : String) (ch : Challenge), Store.get s k = some ch →
        ch.attempts = 0 ∨ ch.attempts = 1 ∨ ch.attempts = 2) ∧
      (∀ (email otp : Option String) (now : Int) (n : Int),
        (verify s email otp now).2 = Reply.invalidCode n → n = 1 ∨ n = 2) ∧
      ∀ (email otp : Option String) (now : Int) (n : Int),
        (verify s email otp now).2.attemptsLeft = some n → n = 1 ∨ n = 2 := by
  have hlt := Reachable.attempts_lt s h
  have hleft : ∀ (email otp : Option String) (now : Int) (n : Int),
      (verify s email otp now).2.attemptsLeft = some n → n = 1 ∨ n = 2 := by
    intro email otp now n hn
    rcases verify_cases s email otp now with h | ⟨e, o, _, _, _, _, h⟩
    · rw [h] at hn; simp [Reply.invalidInput] at hn
    · rcases h with ⟨_, h⟩ | ⟨d, hd, ⟨_, h⟩ | ⟨_, _, h⟩ | ⟨_, _, hatt, h⟩ | ⟨_, _, _, h⟩⟩
      · rw [h] at hn; simp [Reply.notFound] at hn
      · rw [h] at hn; simp [Reply.expired] at hn
      · rw [h] at hn; simp [Reply.verified] at hn
      · rw [h] at hn
        simp only [Reply.invalidCode, Option.some.injEq] at hn
        omega
      · rw [h] at hn; simp [Reply.tooManyAttempts] at hn
  refine ⟨?_, ?_, ?_, hleft⟩
  · intro x hx
    have := hlt x hx
    omega
  · intro k ch hget
    have := hlt (k, ch) (Store.mem_of_get s k ch hget)
    simp only at this
    omega
  · intro email otp now n hn
    apply hleft email otp now n
    rw [hn]; rfl

/-- Witness of C19: the sample store is reachable by one generate call, and a
wrong code on it is answered with 2 attempts left. -/
theorem reachable_attempts_bound_witness :
    (verify sampleStore (some sampleEmail) (some "000000") 0).2 = Reply.invalidCode 2 ∧
      ((2 : Int) = 1 ∨ (2 : Int) = 2) :=
  ⟨by decide,
    (reachable_attempts_bound sampleStore
      (Reachable.afterGenerate [] (some sampleEmail) none 0 23456 true Reachable.atStart)).2.2.1
      (some sampleEmail) (some "000000") 0 2 (by decide)⟩

end OtpApi
